import Mathlib

/-!
Verification of the hybrid chain-quorum replication protocol sources.

This file gives a shallow embedding, in Lean, of the C++ components that the
verified properties talk about:

* the wire message model and its pipe-delimited (de)serialisation
  (`src/core/message.*`),
* the quorum (Paxos-per-key) coordinator (`src/protocols/quorum_replication.cpp`),
* the chain coordinator (`src/protocols/chain_replication.cpp`),
* the hybrid dispatcher with its read cache (`src/protocols/hybrid_protocol.cpp`),
* the performance-metrics pipeline (`src/performance/metrics.cpp`).

Modelling conventions:

* C++ strings are `List Char`; `unordered_map`s are association lists with
  unique keys; `unordered_set<uint32_t>` is `Finset Nat`.
* machine integers are `Nat` (all the arithmetic involved stays far from
  the 2^32 / 2^64 overflow boundaries, and the subtractions performed by the
  code are on monotone clock values, i.e. never underflow);
* C++ `double` values are modelled as exact rationals (`ℚ`); ratio constants
  such as `0.8` are written `mkRat 4 5`;
* wall-clock reads are passed in as explicit `Nat`/`ℚ` parameters, and the
  proposer's 10 ms polling loop is driven by an explicit schedule: a list
  whose k-th element holds the consensus messages the inbound loop delivers
  between poll k and poll k+1, the end of the list being the operation
  timeout;
* network sends are returned as explicit `(destination, message)` lists where
  a property needs them, and omitted where they cannot influence the
  coordinator state.
-/

namespace Replication

/-! ## Decimal rendering and parsing of unsigned integers -/

/-- Decimal digit character, as the C++ stream insertion of an unsigned
integer produces it (`'0' + d`). -/
def digitChar (d : Nat) : Char := Char.ofNat (48 + d)

/-- Fuel-driven accumulator loop behind `natToChars`; the fuel makes the
definition structurally recursive so that concrete values reduce in the
kernel. -/
def natToCharsAux : Nat → Nat → List Char → List Char
  | 0, _, acc => acc
  | fuel + 1, n, acc =>
    if n < 10 then digitChar n :: acc
    else natToCharsAux fuel (n / 10) (digitChar (n % 10) :: acc)

/-- Decimal rendering of a natural number, most significant digit first, as
`operator<<` on an unsigned integer writes it. -/
def natToChars (n : Nat) : List Char := natToCharsAux (n + 1) n []

/-- Numeric value of a digit character. -/
def charVal (c : Char) : Nat := c.toNat - 48

/-- Models `std::stoul` / `std::stoi` on the digit strings produced by
`natToChars`: fold the decimal digits into a number. -/
def charsToNat (l : List Char) : Nat := l.foldl (fun a c => a * 10 + charVal c) 0

theorem natToCharsAux_append (fuel : Nat) :
    ∀ n acc, natToCharsAux fuel n acc = natToCharsAux fuel n [] ++ acc := by
  induction fuel with
  | zero => intro n acc; rfl
  | succ fuel ih =>
    intro n acc
    by_cases h : n < 10
    · simp [natToCharsAux, h]
    · simp only [natToCharsAux, h, if_false]
      rw [ih (n / 10) (digitChar (n % 10) :: acc), ih (n / 10) [digitChar (n % 10)]]
      simp

theorem natToCharsAux_fuel (fuel₁ : Nat) :
    ∀ fuel₂ n acc, n < fuel₁ → n < fuel₂ →
      natToCharsAux fuel₁ n acc = natToCharsAux fuel₂ n acc := by
  induction fuel₁ with
  | zero => intro _ n _ h _; omega
  | succ fuel₁ ih =>
    intro fuel₂ n acc h1 h2
    match fuel₂, h2 with
    | fuel₂ + 1, h2 =>
      by_cases h : n < 10
      · simp [natToCharsAux, h]
      · simp only [natToCharsAux, h, if_false]
        exact ih fuel₂ (n / 10) _ (by omega) (by omega)

theorem natToChars_small {n : Nat} (h : n < 10) : natToChars n = [digitChar n] := by
  simp [natToChars, natToCharsAux, h]

theorem natToChars_large {n : Nat} (h : 10 ≤ n) :
    natToChars n = natToChars (n / 10) ++ [digitChar (n % 10)] := by
  have hd : n / 10 < n := Nat.div_lt_self (by omega) (by omega)
  have h1 : natToChars n = natToCharsAux n (n / 10) [digitChar (n % 10)] := by
    simp [natToChars, natToCharsAux, Nat.not_lt.mpr h]
  rw [h1, natToCharsAux_fuel n (n / 10 + 1) (n / 10) _ (by omega) (by omega),
    natToCharsAux_append]
  rfl

theorem toNat_digitChar {d : Nat} (h : d < 10) : (digitChar d).toNat = 48 + d := by
  interval_cases d <;> rfl

theorem charVal_digitChar {d : Nat} (h : d < 10) : charVal (digitChar d) = d := by
  simp [charVal, toNat_digitChar h]

theorem natToChars_digits {n : Nat} : ∀ c ∈ natToChars n, 48 ≤ c.toNat ∧ c.toNat < 58 := by
  induction n using Nat.strong_induction_on with
  | _ n ih =>
    by_cases h : n < 10
    · rw [natToChars_small h]
      intro c hc
      simp only [List.mem_singleton] at hc
      subst hc
      rw [toNat_digitChar h]
      omega
    · rw [natToChars_large (by omega)]
      intro c hc
      rcases List.mem_append.mp hc with hc | hc
      · exact ih (n / 10) (Nat.div_lt_self (by omega) (by omega)) c hc
      · simp only [List.mem_singleton] at hc
        subst hc
        rw [toNat_digitChar (Nat.mod_lt _ (by omega))]
        have := Nat.mod_lt n (y := 10) (by omega)
        omega

theorem natToChars_ne_pipe {n : Nat} : ∀ c ∈ natToChars n, c ≠ '|' := by
  intro c hc he
  have := natToChars_digits c hc
  subst he
  simp at this

theorem natToChars_ne_comma {n : Nat} : ∀ c ∈ natToChars n, c ≠ ',' := by
  intro c hc he
  have := natToChars_digits c hc
  subst he
  simp at this

theorem natToChars_ne_nil {n : Nat} : natToChars n ≠ [] := by
  by_cases h : n < 10
  · rw [natToChars_small h]; simp
  · rw [natToChars_large (by omega)]; simp

theorem charsToNat_natToChars (n : Nat) : charsToNat (natToChars n) = n := by
  suffices h : ∀ n a, (natToChars n).foldl (fun a c => a * 10 + charVal c) a
      = a * 10 ^ (natToChars n).length + n by
    have := h n 0
    simpa [charsToNat] using this
  intro n
  induction n using Nat.strong_induction_on with
  | _ n ih =>
    intro a
    by_cases h : n < 10
    · rw [natToChars_small h]
      simp [charVal_digitChar h]
    · rw [natToChars_large (by omega)]
      rw [List.foldl_append]
      rw [ih (n / 10) (Nat.div_lt_self (by omega) (by omega)) a]
      simp only [List.foldl_cons, List.foldl_nil, List.length_append,
        List.length_singleton]
      rw [charVal_digitChar (Nat.mod_lt _ (by omega))]
      rw [pow_succ]
      have := Nat.div_add_mod n 10
      ring_nf
      omega

/-! ## `std::getline`-style tokenisation -/

/-- Tokenisation performed by repeated `std::getline(stream, token, delim)`
calls: each token is the text up to the next delimiter (which is consumed) or
to the end of the input.  Once the input is exhausted `getline` fails, so an
input ending in the delimiter yields no final empty token, and empty input
yields no tokens at all. -/
def cppTokens (delim : Char) : List Char → List (List Char)
  | [] => []
  | c :: cs =>
    if c = delim then [] :: cppTokens delim cs
    else
      match cppTokens delim cs with
      | [] => [[c]]
      | t :: ts => (c :: t) :: ts

theorem cppTokens_append (delim : Char) (a rest : List Char)
    (ha : ∀ c ∈ a, c ≠ delim) :
    cppTokens delim (a ++ delim :: rest) = a :: cppTokens delim rest := by
  induction a with
  | nil => simp [cppTokens]
  | cons c cs ih =>
    have hc : c ≠ delim := ha c (by simp)
    have ih' := ih (fun c hc => ha c (by simp [hc]))
    simp only [List.cons_append, cppTokens, hc, if_false, List.append_eq]
    rw [ih']

theorem cppTokens_no_delim (delim : Char) (a : List Char)
    (ha : ∀ c ∈ a, c ≠ delim) (hne : a ≠ []) :
    cppTokens delim a = [a] := by
  induction a with
  | nil => simp at hne
  | cons c cs ih =>
    have hc : c ≠ delim := ha c (by simp)
    by_cases hcs : cs = []
    · subst hcs; simp [cppTokens, hc]
    · have ih' := ih (fun c hc => ha c (by simp [hc])) hcs
      simp [cppTokens, hc, ih']

/-- List-of-parts joining with a separator character, as the C++ loop
`for (i) { if (i > 0) oss << sep; oss << part[i]; }` produces it. -/
def joinWith (sep : Char) : List (List Char) → List Char
  | [] => []
  | [p] => p
  | p :: ps => p ++ sep :: joinWith sep ps

theorem cppTokens_joinWith (sep : Char) (ps : List (List Char))
    (hne : ∀ p ∈ ps, p ≠ []) (hs : ∀ p ∈ ps, ∀ c ∈ p, c ≠ sep) (h0 : ps ≠ []) :
    cppTokens sep (joinWith sep ps) = ps := by
  induction ps with
  | nil => simp at h0
  | cons p ps ih =>
    match ps with
    | [] =>
      exact cppTokens_no_delim sep p (hs p (by simp)) (hne p (by simp))
    | q :: ps' =>
      have h1 : joinWith sep (p :: q :: ps') = p ++ sep :: joinWith sep (q :: ps') := rfl
      rw [h1, cppTokens_append sep p _ (hs p (by simp))]
      rw [ih (fun r hr => hne r (by simp [hr])) (fun r hr => hs r (by simp [hr])) (by simp)]

theorem joinWith_ne_nil (sep : Char) (p : List Char) (ps : List (List Char))
    (hp : p ≠ []) : joinWith sep (p :: ps) ≠ [] := by
  match ps with
  | [] => simpa [joinWith] using hp
  | q :: ps' => simp [joinWith, hp]

theorem joinWith_ne_sep (sep : Char) (ps : List (List Char))
    (hs : ∀ p ∈ ps, ∀ c ∈ p, c ≠ sep) (other : Char) (hother : other ≠ sep)
    : ∀ c ∈ joinWith other ps, c ≠ sep := by
  induction ps with
  | nil => simp [joinWith]
  | cons p ps ih =>
    match ps with
    | [] => exact hs p (by simp)
    | q :: ps' =>
      intro c hc
      have h1 : joinWith other (p :: q :: ps') = p ++ other :: joinWith other (q :: ps') := rfl
      rw [h1] at hc
      rcases List.mem_append.mp hc with hc | hc
      · exact hs p (by simp) c hc
      · rcases List.mem_cons.mp hc with hc | hc
        · subst hc; exact hother
        · exact ih (fun r hr => hs r (by simp [hr])) c hc

/-! ## The message model (`include/core/message.h`, `src/core/message.cpp`).

The `MessageType` enumeration includes the two chain-path kinds
`CHAIN_FORWARD` and `CHAIN_ACK` that the chain coordinator constructs; the
spec lists them as appended contiguously after the base enumeration. -/

inductive MessageType
  | READ_REQUEST | READ_RESPONSE | WRITE_REQUEST | WRITE_RESPONSE
  | HEARTBEAT | NODE_FAILURE | NODE_RECOVERY | CHAIN_UPDATE
  | QUORUM_PREPARE | QUORUM_PROMISE | QUORUM_ACCEPT | QUORUM_ACCEPTED
  | QUORUM_COMMIT | QUORUM_ABORT | MODE_SWITCH | CACHE_UPDATE
  | BATCH_REQUEST | BATCH_RESPONSE | CHAIN_FORWARD | CHAIN_ACK
  deriving DecidableEq, Repr

/-- Numeric value of a message kind (`static_cast<int>(type)`). -/
def MessageType.toNat : MessageType → Nat
  | .READ_REQUEST => 0 | .READ_RESPONSE => 1 | .WRITE_REQUEST => 2
  | .WRITE_RESPONSE => 3 | .HEARTBEAT => 4 | .NODE_FAILURE => 5
  | .NODE_RECOVERY => 6 | .CHAIN_UPDATE => 7 | .QUORUM_PREPARE => 8
  | .QUORUM_PROMISE => 9 | .QUORUM_ACCEPT => 10 | .QUORUM_ACCEPTED => 11
  | .QUORUM_COMMIT => 12 | .QUORUM_ABORT => 13 | .MODE_SWITCH => 14
  | .CACHE_UPDATE => 15 | .BATCH_REQUEST => 16 | .BATCH_RESPONSE => 17
  | .CHAIN_FORWARD => 18 | .CHAIN_ACK => 19

/-- Message kind from its numeric value (`static_cast<MessageType>(n)`); on a
value outside the enumeration the cast has no defined meaning, modelled by an
arbitrary default. -/
def MessageType.fromNat : Nat → MessageType
  | 0 => .READ_REQUEST | 1 => .READ_RESPONSE | 2 => .WRITE_REQUEST
  | 3 => .WRITE_RESPONSE | 4 => .HEARTBEAT | 5 => .NODE_FAILURE
  | 6 => .NODE_RECOVERY | 7 => .CHAIN_UPDATE | 8 => .QUORUM_PREPARE
  | 9 => .QUORUM_PROMISE | 10 => .QUORUM_ACCEPT | 11 => .QUORUM_ACCEPTED
  | 12 => .QUORUM_COMMIT | 13 => .QUORUM_ABORT | 14 => .MODE_SWITCH
  | 15 => .CACHE_UPDATE | 16 => .BATCH_REQUEST | 17 => .BATCH_RESPONSE
  | 18 => .CHAIN_FORWARD | 19 => .CHAIN_ACK | _ => .READ_REQUEST

theorem MessageType.fromNat_toNat (t : MessageType) : MessageType.fromNat t.toNat = t := by
  cases t <;> rfl

/-- Replication mode enumeration used by the protocol implementations.  -/
inductive ReplicationMode
  | CHAIN_ONLY | QUORUM_ONLY | HYBRID_AUTO
  deriving DecidableEq, Repr

/-- The wire message (`struct Message`); strings are `List Char`. -/
structure Message where
  type : MessageType
  sender_id : Nat
  receiver_id : Nat
  key : List Char
  value : List Char
  success : Bool
  timestamp : Nat
  sequence_number : Nat
  correlation_id : List Char
  target_nodes : List Nat
  metadata : List Char
  deriving DecidableEq, Repr

/-- The C++ default constructor of `Message`. -/
def Message.mkDefault : Message :=
  { type := .READ_REQUEST, sender_id := 0, receiver_id := 0, key := [],
    value := [], success := false, timestamp := 0, sequence_number := 0,
    correlation_id := [], target_nodes := [], metadata := [] }

instance : Inhabited Message := ⟨Message.mkDefault⟩

/-- `success` field encoding on the wire (`success ? "1" : "0"`). -/
def boolChar (b : Bool) : List Char := if b then ['1'] else ['0']

/-- `Message::serialize`: pipe-delimited concatenation of the eleven fields,
targets comma-separated, metadata last with no trailing delimiter. -/
def Message.serialize (m : Message) : List Char :=
  natToChars (MessageType.toNat m.type) ++ '|' ::
  (natToChars m.sender_id ++ '|' ::
  (natToChars m.receiver_id ++ '|' ::
  (m.key ++ '|' ::
  (m.value ++ '|' ::
  (boolChar m.success ++ '|' ::
  (natToChars m.timestamp ++ '|' ::
  (natToChars m.sequence_number ++ '|' ::
  (m.correlation_id ++ '|' ::
  (joinWith ',' (m.target_nodes.map natToChars) ++ '|' ::
  m.metadata)))))))))

/-- Target-list parsing in `Message::deserialize`: an empty token yields no
targets, otherwise comma-separated `std::stoul` values. -/
def parseTargets (tok : List Char) : List Nat :=
  if tok = [] then [] else (cppTokens ',' tok).map charsToNat

/-- `Message::deserialize`: split on `'|'` with `std::getline` and assign the
fields positionally; a field whose `getline` fails keeps its
default-constructed value.  Numeric parsing is modelled by `charsToNat`,
which agrees with `std::stoul`/`std::stoi` on the digit strings that
`serialize` emits. -/
def Message.deserialize (data : List Char) : Message :=
  let toks := cppTokens '|' data
  let d := Message.mkDefault
  { type := match toks[0]? with
      | some t => MessageType.fromNat (charsToNat t) | none => d.type
    sender_id := match toks[1]? with
      | some t => charsToNat t | none => d.sender_id
    receiver_id := match toks[2]? with
      | some t => charsToNat t | none => d.receiver_id
    key := match toks[3]? with
      | some t => t | none => d.key
    value := match toks[4]? with
      | some t => t | none => d.value
    success := match toks[5]? with
      | some t => if t = ['1'] then true else false | none => d.success
    timestamp := match toks[6]? with
      | some t => charsToNat t | none => d.timestamp
    sequence_number := match toks[7]? with
      | some t => charsToNat t | none => d.sequence_number
    correlation_id := match toks[8]? with
      | some t => t | none => d.correlation_id
    target_nodes := match toks[9]? with
      | some t => parseTargets t | none => d.target_nodes
    metadata := match toks[10]? with
      | some t => t | none => d.metadata }

theorem boolChar_ne_pipe (b : Bool) : ∀ c ∈ boolChar b, c ≠ '|' := by
  cases b <;> decide

theorem cppTokens_serialize (m : Message)
    (hk : ∀ c ∈ m.key, c ≠ '|') (hv : ∀ c ∈ m.value, c ≠ '|')
    (hc : ∀ c ∈ m.correlation_id, c ≠ '|') :
    cppTokens '|' m.serialize =
      [natToChars (MessageType.toNat m.type), natToChars m.sender_id,
       natToChars m.receiver_id, m.key, m.value, boolChar m.success,
       natToChars m.timestamp, natToChars m.sequence_number,
       m.correlation_id, joinWith ',' (m.target_nodes.map natToChars)]
      ++ cppTokens '|' m.metadata := by
  have htargets : ∀ c ∈ joinWith ',' (m.target_nodes.map natToChars), c ≠ '|' := by
    apply joinWith_ne_sep '|' _ _ ',' (by decide)
    intro p hp
    rcases List.mem_map.mp hp with ⟨n, _, rfl⟩
    exact natToChars_ne_pipe
  unfold Message.serialize
  rw [cppTokens_append _ _ _ natToChars_ne_pipe,
      cppTokens_append _ _ _ natToChars_ne_pipe,
      cppTokens_append _ _ _ natToChars_ne_pipe,
      cppTokens_append _ _ _ hk,
      cppTokens_append _ _ _ hv,
      cppTokens_append _ _ _ (boolChar_ne_pipe m.success),
      cppTokens_append _ _ _ natToChars_ne_pipe,
      cppTokens_append _ _ _ natToChars_ne_pipe,
      cppTokens_append _ _ _ hc,
      cppTokens_append _ _ _ htargets]
  rfl

theorem parseTargets_joinWith (ts : List Nat) :
    parseTargets (joinWith ',' (ts.map natToChars)) = ts := by
  match ts with
  | [] => rfl
  | t :: ts' =>
    have hne : joinWith ',' ((t :: ts').map natToChars) ≠ [] := by
      simp only [List.map_cons]
      exact joinWith_ne_nil ',' _ _ natToChars_ne_nil
    rw [parseTargets, if_neg hne]
    rw [cppTokens_joinWith ',' _ ?hne ?hsep (by simp)]
    case hne =>
      intro p hp
      rcases List.mem_map.mp hp with ⟨n, _, rfl⟩
      exact natToChars_ne_nil
    case hsep =>
      intro p hp
      rcases List.mem_map.mp hp with ⟨n, _, rfl⟩
      exact natToChars_ne_comma
    rw [List.map_map]
    have : charsToNat ∘ natToChars = id := by
      funext n; exact charsToNat_natToChars n
    simp [this]

/-- C7: `Message::deserialize ∘ Message::serialize` is the identity on every
message whose key, value, correlation and metadata strings are free of the
pipe delimiter — every field round-trips, including empty strings and an
empty target list. -/
theorem Message.deserialize_serialize (m : Message)
    (hk : ∀ c ∈ m.key, c ≠ '|') (hv : ∀ c ∈ m.value, c ≠ '|')
    (hc : ∀ c ∈ m.correlation_id, c ≠ '|') (hm : ∀ c ∈ m.metadata, c ≠ '|') :
    Message.deserialize (Message.serialize m) = m := by
  obtain ⟨ty, sid, rid, k, v, s, ts, sq, ci, tn, md⟩ := m
  unfold Message.deserialize
  rw [cppTokens_serialize _ hk hv hc]
  by_cases hmd : md = []
  · subst hmd
    cases s <;>
      simp [charsToNat_natToChars, MessageType.fromNat_toNat,
        parseTargets_joinWith, Message.mkDefault, boolChar, cppTokens]
  · rw [show (Message.mk ty sid rid k v s ts sq ci tn md).metadata = md from rfl,
        cppTokens_no_delim '|' md hm hmd]
    cases s <;>
      simp [charsToNat_natToChars, MessageType.fromNat_toNat,
        parseTargets_joinWith, boolChar]

/-- C7 witness: the round trip evaluated at a concrete message with a
non-trivial value in every field. -/
theorem Message.deserialize_serialize_witness :
    Message.deserialize (Message.serialize
      { type := .WRITE_REQUEST, sender_id := 3, receiver_id := 12,
        key := ['k'], value := ['v', '1'], success := true, timestamp := 42,
        sequence_number := 7, correlation_id := ['c'],
        target_nodes := [1, 2, 30], metadata := ['m'] }) =
      { type := .WRITE_REQUEST, sender_id := 3, receiver_id := 12,
        key := ['k'], value := ['v', '1'], success := true, timestamp := 42,
        sequence_number := 7, correlation_id := ['c'],
        target_nodes := [1, 2, 30], metadata := ['m'] } := by
  exact Message.deserialize_serialize _ (by decide) (by decide) (by decide) (by decide)

/-! ## The node-local key-value store (`Node::read` / `Node::write`)

`Node::write` unconditionally creates or replaces and returns true;
`Node::read` returns whether the key was present. The per-node operation
counters are not modelled (nothing in the verified properties reads them). -/

/-- The node's `data_store_`: an association list with unique keys standing
for `std::unordered_map<std::string, std::string>`. -/
abbrev Store := List (List Char × List Char)

/-- Lookup half of `Node::read`. -/
def storeRead : Store → List Char → Option (List Char)
  | [], _ => none
  | (k, v) :: rest, key => if k = key then some v else storeRead rest key

/-- `Node::write`: create-or-replace. -/
def storeWrite : Store → List Char → List Char → Store
  | [], key, value => [(key, value)]
  | (k, v) :: rest, key, value =>
    if k = key then (key, value) :: rest else (k, v) :: storeWrite rest key value

/-! ## The quorum coordinator (`quorum_replication.{h,cpp}`) -/

/-- Paxos round phase (`enum class QuorumPhase`). -/
inductive QuorumPhase
  | PREPARE | ACCEPT | COMMIT
  deriving DecidableEq, Repr

/-- Per-proposal consensus state (`struct QuorumState`); the two
`unordered_set<uint32_t>` fields are finite sets of node ids. -/
structure QuorumState where
  proposal_number : Nat
  phase : QuorumPhase
  key : List Char
  value : List Char
  promised_nodes : Finset Nat
  accepted_nodes : Finset Nat
  start_time : Nat
  deriving DecidableEq

/-- `QuorumState::has_majority`: at least `(total_nodes / 2) + 1` promised
nodes, where `total_nodes` is the argument the caller passes. -/
def QuorumState.has_majority (st : QuorumState) (total_nodes : Nat) : Bool :=
  decide (total_nodes / 2 + 1 ≤ st.promised_nodes.card)

/-- `QuorumState::has_accept_majority`: at least `(total_nodes / 2) + 1`
accepted nodes. -/
def QuorumState.has_accept_majority (st : QuorumState) (total_nodes : Nat) : Bool :=
  decide (total_nodes / 2 + 1 ≤ st.accepted_nodes.card)

/-- Lookup in the `active_proposals_` map (`unordered_map<uint64_t,
QuorumState>`), keyed by proposal number. -/
def lookupProposal : List (Nat × QuorumState) → Nat → Option QuorumState
  | [], _ => none
  | (k, st) :: rest, pn => if k = pn then some st else lookupProposal rest pn

/-- Map update `active_proposals_[pn] = st`: replace in place, or append a
fresh entry. -/
def insertProposal : List (Nat × QuorumState) → Nat → QuorumState → List (Nat × QuorumState)
  | [], pn, st => [(pn, st)]
  | (k, st') :: rest, pn, st =>
    if k = pn then (pn, st) :: rest else (k, st') :: insertProposal rest pn st

/-- Map erase `active_proposals_.erase(pn)`: removes the (unique) entry with
that key. -/
def eraseProposal : List (Nat × QuorumState) → Nat → List (Nat × QuorumState)
  | [], _ => []
  | (k, st) :: rest, pn => if k = pn then rest else (k, st) :: eraseProposal rest pn

/-- The coordinator state (`class QuorumReplication`); `node_id` stands for
`node_->get_node_id()`. The `consensus_times_` vector only feeds an average
reported to callers, so it is not modelled. -/
structure QuorumReplication where
  node_id : Nat
  quorum_nodes : List Nat
  quorum_size : Nat
  next_proposal_number : Nat
  fast_quorum_enabled : Bool
  read_optimization_enabled : Bool
  adaptive_quorum_enabled : Bool
  operation_timeout : Nat
  active_proposals : List (Nat × QuorumState)
  successful_consensus : Nat
  failed_consensus : Nat
  deriving DecidableEq

/-- The `QuorumReplication` constructor: quorum size `⌊N/2⌋+1`, proposal
counter 1, all three optimisation flags on (their member initialisers),
timeout 5000 ms, counters zero. -/
def QuorumReplication.mk0 (node_id : Nat) (quorum_nodes : List Nat) : QuorumReplication :=
  { node_id := node_id, quorum_nodes := quorum_nodes,
    quorum_size := quorum_nodes.length / 2 + 1, next_proposal_number := 1,
    fast_quorum_enabled := true, read_optimization_enabled := true,
    adaptive_quorum_enabled := true, operation_timeout := 5000,
    active_proposals := [], successful_consensus := 0, failed_consensus := 0 }

/-- `QuorumReplication::get_consensus_success_rate`: 0 when no consensus has
completed, else successes over total (an exact rational standing for the
C++ `double` quotient). -/
def QuorumReplication.get_consensus_success_rate (qr : QuorumReplication) : ℚ :=
  if qr.successful_consensus + qr.failed_consensus = 0 then 0
  else mkRat qr.successful_consensus (qr.successful_consensus + qr.failed_consensus)

/-- `QuorumReplication::calculate_optimal_quorum_size`: start from the floor
majority, raise by one (capped at N) when the success rate is below 0.8,
lower by one (floored at 3) when it is above 0.95. -/
def QuorumReplication.calculate_optimal_quorum_size (qr : QuorumReplication) : Nat :=
  let base_size := qr.quorum_nodes.length / 2 + 1
  if qr.get_consensus_success_rate < mkRat 4 5 then
    min (base_size + 1) qr.quorum_nodes.length
  else if mkRat 19 20 < qr.get_consensus_success_rate then
    max (base_size - 1) 3
  else base_size

/-- `QuorumReplication::adjust_quorum_size_based_on_load`: adopt the computed
optimal size when it differs from the current one and is at least 3. -/
def QuorumReplication.adjust_quorum_size_based_on_load (qr : QuorumReplication) : QuorumReplication :=
  let optimal_size := qr.calculate_optimal_quorum_size
  if optimal_size ≠ qr.quorum_size ∧ 3 ≤ optimal_size then
    { qr with quorum_size := optimal_size }
  else qr

/-- `QuorumReplication::update_quorum_nodes`. -/
def QuorumReplication.update_quorum_nodes (qr : QuorumReplication)
    (new_nodes : List Nat) : QuorumReplication :=
  { qr with quorum_nodes := new_nodes, quorum_size := new_nodes.length / 2 + 1 }

/-- `QuorumReplication::is_in_quorum` (`std::find` over the member list). -/
def QuorumReplication.is_in_quorum (qr : QuorumReplication) (nid : Nat) : Bool :=
  qr.quorum_nodes.contains nid

/-- `QuorumReplication::handle_node_failure`: remove the first occurrence of
the failed id, recompute the floor majority, then — when adaptive quorum is
enabled — immediately re-adjust based on load. -/
def QuorumReplication.handle_node_failure (qr : QuorumReplication)
    (failed_node : Nat) : QuorumReplication :=
  if failed_node ∈ qr.quorum_nodes then
    let nodes := qr.quorum_nodes.erase failed_node
    let qr1 := { qr with quorum_nodes := nodes, quorum_size := nodes.length / 2 + 1 }
    if qr1.adaptive_quorum_enabled then qr1.adjust_quorum_size_based_on_load else qr1
  else qr

/-- `QuorumReplication::handle_node_recovery`: append the id and recompute
the floor majority, but only when the id is not already a member. -/
def QuorumReplication.handle_node_recovery (qr : QuorumReplication)
    (recovered_node : Nat) : QuorumReplication :=
  if qr.is_in_quorum recovered_node then qr
  else
    let nodes := qr.quorum_nodes ++ [recovered_node]
    { qr with quorum_nodes := nodes, quorum_size := nodes.length / 2 + 1 }

/-- `QuorumReplication::handle_promise`: tally the sender into the
proposal's promised set and, on majority (computed from the current member
count), move the proposal to the accept phase. The accept broadcast this
triggers does not change the coordinator state and is not modelled. -/
def QuorumReplication.handle_promise (qr : QuorumReplication)
    (message : Message) : QuorumReplication :=
  match lookupProposal qr.active_proposals message.sequence_number with
  | none => qr
  | some st =>
    let st1 := { st with promised_nodes := insert message.sender_id st.promised_nodes }
    let st2 := if st1.has_majority qr.quorum_nodes.length
               then { st1 with phase := .ACCEPT } else st1
    { qr with active_proposals :=
        insertProposal qr.active_proposals message.sequence_number st2 }

/-- `QuorumReplication::handle_accepted`: tally the sender into the
proposal's accepted set and, on accept majority, mark the proposal
committed. -/
def QuorumReplication.handle_accepted (qr : QuorumReplication)
    (message : Message) : QuorumReplication :=
  match lookupProposal qr.active_proposals message.sequence_number with
  | none => qr
  | some st =>
    let st1 := { st with accepted_nodes := insert message.sender_id st.accepted_nodes }
    let st2 := if st1.has_accept_majority qr.quorum_nodes.length
               then { st1 with phase := .COMMIT } else st1
    { qr with active_proposals :=
        insertProposal qr.active_proposals message.sequence_number st2 }

theorem lookupProposal_insertProposal (tbl : List (Nat × QuorumState)) (pn : Nat)
    (st : QuorumState) : lookupProposal (insertProposal tbl pn st) pn = some st := by
  induction tbl with
  | nil => simp [insertProposal, lookupProposal]
  | cons p rest ih =>
    obtain ⟨k, st'⟩ := p
    by_cases h : k = pn <;> simp [insertProposal, lookupProposal, h, ih]

/-! ### C1: what threshold does majority detection use? -/

/-- C1 (amended): majority detection follows the floor majority of the
current member count, not the (possibly adaptively adjusted) quorum_size
field.  For a proposal present in the table, `handle_promise` adds the
sender to its promised set and moves it to the accept phase exactly when
that set reaches `⌊N/2⌋+1` members, `N` being the current quorum-member
count; `handle_accepted` does the same for the accepted tally and the commit
phase; and the entire promise-handling step is unaffected by the value of
the quorum_size field. -/
theorem handle_promise_accepted_floor_majority (qr : QuorumReplication)
    (message : Message) (st : QuorumState)
    (h : lookupProposal qr.active_proposals message.sequence_number = some st) :
    (st.phase = .PREPARE →
      ∃ st', lookupProposal (qr.handle_promise message).active_proposals
          message.sequence_number = some st' ∧
        st'.promised_nodes = insert message.sender_id st.promised_nodes ∧
        (st'.phase = .ACCEPT ↔
          qr.quorum_nodes.length / 2 + 1 ≤ (insert message.sender_id st.promised_nodes).card)) ∧
    (st.phase = .ACCEPT →
      ∃ st', lookupProposal (qr.handle_accepted message).active_proposals
          message.sequence_number = some st' ∧
        st'.accepted_nodes = insert message.sender_id st.accepted_nodes ∧
        (st'.phase = .COMMIT ↔
          qr.quorum_nodes.length / 2 + 1 ≤ (insert message.sender_id st.accepted_nodes).card)) ∧
    (∀ qs : Nat, QuorumReplication.handle_promise { qr with quorum_size := qs } message
        = { qr.handle_promise message with quorum_size := qs }) := by
  refine ⟨?_, ?_, ?_⟩
  · intro hphase
    by_cases hm : ({ st with promised_nodes := insert message.sender_id st.promised_nodes
        : QuorumState }).has_majority qr.quorum_nodes.length = true
    · refine ⟨{ st with
                 promised_nodes := insert message.sender_id st.promised_nodes,
                 phase := .ACCEPT }, ?_, rfl, ?_⟩
      · simp only [QuorumReplication.handle_promise, h, hm, if_true]
        exact lookupProposal_insertProposal _ _ _
      · simp only [QuorumState.has_majority, decide_eq_true_eq] at hm
        simpa using hm
    · refine ⟨{ st with promised_nodes := insert message.sender_id st.promised_nodes }, ?_, rfl, ?_⟩
      · simp only [QuorumReplication.handle_promise, h, hm, if_false]
        exact lookupProposal_insertProposal _ _ _
      · simp only [QuorumState.has_majority, decide_eq_true_eq] at hm
        simp [hphase, hm]
  · intro hphase
    by_cases hm : ({ st with accepted_nodes := insert message.sender_id st.accepted_nodes
        : QuorumState }).has_accept_majority qr.quorum_nodes.length = true
    · refine ⟨{ st with
                 accepted_nodes := insert message.sender_id st.accepted_nodes,
                 phase := .COMMIT }, ?_, rfl, ?_⟩
      · simp only [QuorumReplication.handle_accepted, h, hm, if_true]
        exact lookupProposal_insertProposal _ _ _
      · simp only [QuorumState.has_accept_majority, decide_eq_true_eq] at hm
        simpa using hm
    · refine ⟨{ st with accepted_nodes := insert message.sender_id st.accepted_nodes }, ?_, rfl, ?_⟩
      · simp only [QuorumReplication.handle_accepted, h, hm, if_false]
        exact lookupProposal_insertProposal _ _ _
      · simp only [QuorumState.has_accept_majority, decide_eq_true_eq] at hm
        simp [hphase, hm]
  · intro qs
    simp only [QuorumReplication.handle_promise]
    cases hl : lookupProposal qr.active_proposals message.sequence_number <;> simp

/-- Concrete seven-member coordinator with consensus success rate 0.7, used
to drive the adaptive quorum adjustment. -/
def qrSeven : QuorumReplication :=
  { QuorumReplication.mk0 1 [1, 2, 3, 4, 5, 6, 7] with
    successful_consensus := 7, failed_consensus := 3 }

/-- Coordinator whose quorum_size has been adaptively raised to 5 (seven
members, success rate 0.7), holding one prepare-phase proposal with three
promises. -/
def qrC1 : QuorumReplication :=
  { qrSeven.adjust_quorum_size_based_on_load with
    active_proposals :=
      [(1, { proposal_number := 1, phase := .PREPARE, key := ['k'],
             value := ['v'], promised_nodes := {1, 2, 3}, accepted_nodes := ∅,
             start_time := 0 })] }

/-- The promise message that the fourth member sends for proposal 1. -/
def promiseMsgC1 : Message :=
  { Message.mkDefault with
    type := .QUORUM_PROMISE, sender_id := 4, sequence_number := 1, success := true }

/-- C1 counterexample: with quorum_size adaptively raised to 5 over seven
members, a proposal holding only four promises — fewer than quorum_size —
is treated as having a majority: `handle_promise` moves it to the accept
phase because `has_majority` recomputes `⌊7/2⌋+1 = 4` from the member count
and ignores the quorum_size field, contradicting the claim that
`has_majority ≡ |promised| ≥ quorum_size` for the adjusted quorum_size. -/
theorem has_majority_ignores_quorum_size_counterexample :
    qrC1.quorum_size = 5 ∧
    lookupProposal (qrC1.handle_promise promiseMsgC1).active_proposals 1 =
      some { proposal_number := 1, phase := .ACCEPT, key := ['k'],
             value := ['v'], promised_nodes := {4, 1, 2, 3}, accepted_nodes := ∅,
             start_time := 0 } ∧
    ({ proposal_number := 1, phase := .ACCEPT, key := ['k'], value := ['v'],
       promised_nodes := {4, 1, 2, 3}, accepted_nodes := ∅, start_time := 0
       : QuorumState }).promised_nodes.card < qrC1.quorum_size := by
  refine ⟨by decide, by decide, by decide⟩

/-- C1 witness: the amended theorem applied to the concrete coordinator
`qrC1` and promise message above. -/
theorem handle_promise_accepted_floor_majority_witness :
    (∃ st', lookupProposal (qrC1.handle_promise promiseMsgC1).active_proposals 1 = some st' ∧
      st'.promised_nodes = insert 4 ({1, 2, 3} : Finset Nat) ∧
      (st'.phase = .ACCEPT ↔
        qrC1.quorum_nodes.length / 2 + 1 ≤ (insert 4 ({1, 2, 3} : Finset Nat)).card)) := by
  have h := handle_promise_accepted_floor_majority qrC1 promiseMsgC1
    { proposal_number := 1, phase := .PREPARE, key := ['k'], value := ['v'],
      promised_nodes := {1, 2, 3}, accepted_nodes := ∅, start_time := 0 } (by decide)
  exact h.1 rfl

/-! ### C2: quorum arithmetic across membership changes -/

/-- Membership-changing calls on the quorum coordinator. -/
inductive QuorumOp
  | fail (id : Nat)
  | recover (id : Nat)
  | update (nodes : List Nat)
  deriving DecidableEq

/-- Dispatch one membership call. -/
def applyQuorumOp (qr : QuorumReplication) : QuorumOp → QuorumReplication
  | .fail id => qr.handle_node_failure id
  | .recover id => qr.handle_node_recovery id
  | .update nodes => qr.update_quorum_nodes nodes

/-- Run a sequence of membership calls. -/
def applyQuorumOps (qr : QuorumReplication) (ops : List QuorumOp) : QuorumReplication :=
  ops.foldl applyQuorumOp qr

theorem applyQuorumOp_step (qr : QuorumReplication) (op : QuorumOp)
    (had : qr.adaptive_quorum_enabled = false)
    (h0 : qr.quorum_size = qr.quorum_nodes.length / 2 + 1) :
    (applyQuorumOp qr op).adaptive_quorum_enabled = false ∧
    (applyQuorumOp qr op).quorum_size = (applyQuorumOp qr op).quorum_nodes.length / 2 + 1 := by
  cases op with
  | fail id =>
    simp only [applyQuorumOp, QuorumReplication.handle_node_failure]
    split_ifs with h1 h2
    · simp [had] at h2
    · exact ⟨had, rfl⟩
    · exact ⟨had, h0⟩
  | recover id =>
    simp only [applyQuorumOp, QuorumReplication.handle_node_recovery]
    split_ifs with h1
    · exact ⟨had, h0⟩
    · exact ⟨had, rfl⟩
  | update nodes => exact ⟨had, rfl⟩

/-- C2 (amended): with adaptive quorum sizing disabled, every sequence of
`handle_node_failure`, `handle_node_recovery` and `update_quorum_nodes`
calls keeps `quorum_size = ⌊N/2⌋+1` for the resulting member count `N`
(given that the invariant holds initially, as the constructor establishes).
With adaptive quorum enabled the invariant fails: see the counterexample,
where `handle_node_failure` immediately re-adjusts the size away from the
floor majority. -/
theorem quorum_size_majority_invariant (qr : QuorumReplication) (ops : List QuorumOp)
    (had : qr.adaptive_quorum_enabled = false)
    (h0 : qr.quorum_size = qr.quorum_nodes.length / 2 + 1) :
    (applyQuorumOps qr ops).quorum_size =
      (applyQuorumOps qr ops).quorum_nodes.length / 2 + 1 := by
  induction ops generalizing qr with
  | nil => simpa [applyQuorumOps]
  | cons op rest ih =>
    have hstep := applyQuorumOp_step qr op had h0
    have : applyQuorumOps qr (op :: rest) = applyQuorumOps (applyQuorumOp qr op) rest := rfl
    rw [this]
    exact ih _ hstep.1 hstep.2

/-- Four-member coordinator fresh from the constructor (adaptive quorum
enabled, no consensus history). -/
def qrC2 : QuorumReplication := QuorumReplication.mk0 1 [1, 2, 3, 4]

/-- C2 counterexample: with adaptive quorum enabled (the constructor
default) and success rate 0 (< 0.8), `handle_node_failure 4` on {1,2,3,4}
leaves three members but quorum_size 3 ≠ ⌊3/2⌋+1 = 2 — the failure handler
re-adjusts the size immediately after recomputing the floor majority. -/
theorem quorum_size_after_failure_counterexample :
    qrC2.adaptive_quorum_enabled = true ∧
    (qrC2.handle_node_failure 4).quorum_nodes.length = 3 ∧
    (qrC2.handle_node_failure 4).quorum_size = 3 ∧
    (qrC2.handle_node_failure 4).quorum_size ≠
      (qrC2.handle_node_failure 4).quorum_nodes.length / 2 + 1 := by
  refine ⟨rfl, by decide, by decide, by decide⟩

/-- Five-member coordinator with adaptive quorum disabled. -/
def qrC2w : QuorumReplication :=
  { QuorumReplication.mk0 1 [1, 2, 3, 4, 5] with adaptive_quorum_enabled := false }

/-- C2 witness: the invariant theorem applied to a concrete coordinator and
a concrete call sequence mixing failure, recovery and reconfiguration. -/
theorem quorum_size_majority_invariant_witness :
    (applyQuorumOps qrC2w
        [QuorumOp.fail 2, QuorumOp.recover 2, QuorumOp.update [1, 2, 3]]).quorum_size =
      (applyQuorumOps qrC2w
        [QuorumOp.fail 2, QuorumOp.recover 2, QuorumOp.update [1, 2, 3]]).quorum_nodes.length / 2 + 1 :=
  quorum_size_majority_invariant qrC2w _ rfl rfl

/-! ### C3: the adaptive quorum adjustment -/

/-- C3 (amended): starting from the natural state `quorum_size = ⌊N/2⌋+1`,
`adjust_quorum_size_based_on_load` behaves as follows. Success rate < 0.8:
for `N ≥ 3` the size becomes `min (⌊N/2⌋+2) N` (a raise by one capped at N);
for `N < 3` it is unchanged. Success rate > 0.95: the size becomes
`max (⌊N/2⌋) 3` for every `N` — the floor of 3 applies to single- and
two-node clusters as well, where it exceeds the natural majority.
Intermediate rates leave the size unchanged. -/
theorem adjust_quorum_size_characterisation (qr : QuorumReplication)
    (hq : qr.quorum_size = qr.quorum_nodes.length / 2 + 1) :
    (qr.adjust_quorum_size_based_on_load).quorum_size =
      if qr.get_consensus_success_rate < mkRat 4 5 then
        (if 3 ≤ qr.quorum_nodes.length
         then min (qr.quorum_nodes.length / 2 + 2) qr.quorum_nodes.length
         else qr.quorum_nodes.length / 2 + 1)
      else if mkRat 19 20 < qr.get_consensus_success_rate then
        max (qr.quorum_nodes.length / 2) 3
      else qr.quorum_nodes.length / 2 + 1 := by
  have hval : (qr.adjust_quorum_size_based_on_load).quorum_size =
      if qr.calculate_optimal_quorum_size ≠ qr.quorum_size ∧
         3 ≤ qr.calculate_optimal_quorum_size
      then qr.calculate_optimal_quorum_size else qr.quorum_size := by
    simp only [QuorumReplication.adjust_quorum_size_based_on_load]
    split_ifs <;> rfl
  rw [hval]
  simp only [QuorumReplication.calculate_optimal_quorum_size, hq]
  split_ifs <;> omega

/-- C3 witness: seven members at success rate 0.7 — the adjustment raises
quorum_size from 4 to 5, the concrete instance named by the claim. -/
theorem adjust_quorum_size_characterisation_witness :
    qrSeven.quorum_size = 4 ∧
    (qrSeven.adjust_quorum_size_based_on_load).quorum_size = 5 := by
  refine ⟨rfl, ?_⟩
  rw [adjust_quorum_size_characterisation qrSeven rfl]
  decide

/-- Single-node coordinator with consensus success rate 1.0. -/
def qrC3 : QuorumReplication :=
  { QuorumReplication.mk0 1 [1] with successful_consensus := 20 }

/-- C3 counterexample: a single-node quorum with success rate 1.0 (> 0.95)
does not keep the natural majority ⌊1/2⌋+1 = 1 — the adjustment sets
quorum_size to the global floor 3, which exceeds the cluster size,
contradicting the claim that the minimum of 3 applies only when N ≥ 3. -/
theorem adjust_quorum_size_single_node_counterexample :
    qrC3.quorum_nodes.length = 1 ∧ qrC3.quorum_size = 1 ∧
    mkRat 19 20 < qrC3.get_consensus_success_rate ∧
    (qrC3.adjust_quorum_size_based_on_load).quorum_size = 3 := by
  refine ⟨rfl, rfl, by decide, by decide⟩

/-! ### The proposer side: process_read / process_write

The proposer inserts a proposal, broadcasts, then polls the proposal state
at 10 ms granularity while the inbound message loop feeds `handle_promise` /
`handle_accepted`.  The interleaving is modelled by a delivery schedule: a
list whose k-th batch holds the consensus messages handled between poll k
and poll k+1; the end of the schedule is the operation timeout. -/

/-- Modelled from the spec: `Message::is_read_operation` lives in the
message header that is absent from the sources; per the spec's request
taxonomy it recognises the read-request kind. -/
def Message.is_read_operation (m : Message) : Bool :=
  decide (m.type = MessageType.READ_REQUEST)

/-- Modelled from the spec: `Message::is_write_operation`, the write-request
counterpart of `is_read_operation`. -/
def Message.is_write_operation (m : Message) : Bool :=
  decide (m.type = MessageType.WRITE_REQUEST)

/-- `QuorumReplication::can_use_fast_path`: a read operation with a
non-empty key while fast quorum is enabled. -/
def QuorumReplication.can_use_fast_path (qr : QuorumReplication) (request : Message) : Bool :=
  request.is_read_operation && decide (request.key ≠ []) && qr.fast_quorum_enabled

/-- One consensus message delivered to the proposer's coordinator while it
polls: a promise or an accepted reply for the proposal from the given
sender. -/
inductive QEvent
  | promise (sender : Nat)
  | accepted (sender : Nat)
  deriving DecidableEq

/-- The wire promise for proposal `pn` from `sender`. -/
def promiseMsg (pn sender : Nat) : Message :=
  { Message.mkDefault with
    type := .QUORUM_PROMISE, sender_id := sender,
    sequence_number := pn, success := true }

/-- The wire accepted reply for proposal `pn` from `sender`. -/
def acceptedMsg (pn sender : Nat) : Message :=
  { Message.mkDefault with
    type := .QUORUM_ACCEPTED, sender_id := sender,
    sequence_number := pn, success := true }

/-- Dispatch one delivered consensus message into the coordinator. -/
def applyQEvent (pn : Nat) (qr : QuorumReplication) : QEvent → QuorumReplication
  | .promise s => qr.handle_promise (promiseMsg pn s)
  | .accepted s => qr.handle_accepted (acceptedMsg pn s)

/-- Handle one batch of delivered consensus messages. -/
def applyBatch (pn : Nat) (qr : QuorumReplication) (b : List QEvent) : QuorumReplication :=
  b.foldl (applyQEvent pn) qr

/-- Handle a sequence of delivery batches. -/
def applyBatches (pn : Nat) (qr : QuorumReplication) (bs : List (List QEvent)) : QuorumReplication :=
  bs.foldl (applyBatch pn) qr

/-- `active_proposals_.erase(pn)` on the coordinator. -/
def QuorumReplication.eraseActive (qr : QuorumReplication) (pn : Nat) : QuorumReplication :=
  { qr with active_proposals := eraseProposal qr.active_proposals pn }

/-- The polling loop of `QuorumReplication::process_read`: at each poll, if
the proposal has a promise majority, consult the local store — on a hit
return the value, on a miss break — erasing the proposal either way;
otherwise let the next batch of the schedule be handled and poll again; an
exhausted schedule is the timeout, which erases the proposal and fails. -/
def readWait (store : Store) (key : List Char) (pn : Nat) :
    QuorumReplication → List (List QEvent) → Option (List Char) × QuorumReplication
  | qr, [] => (none, qr.eraseActive pn)
  | qr, b :: rest =>
    match lookupProposal qr.active_proposals pn with
    | some st =>
      if st.has_majority qr.quorum_nodes.length then
        match storeRead store key with
        | some v => (some v, qr.eraseActive pn)
        | none => (none, qr.eraseActive pn)
      else readWait store key pn (applyBatch pn qr b) rest
    | none => readWait store key pn (applyBatch pn qr b) rest

/-- Proposal creation for a consensus read: draw a proposal number
(`fetch_add` on the monotone counter) and insert a prepare-phase state under
it.  The prepare broadcast always reports success and leaves the coordinator
state unchanged, so it is not represented. -/
def QuorumReplication.readConsensusStart (qr : QuorumReplication)
    (key : List Char) : QuorumReplication :=
  { qr with
    next_proposal_number := qr.next_proposal_number + 1,
    active_proposals := insertProposal qr.active_proposals qr.next_proposal_number
      { proposal_number := qr.next_proposal_number, phase := .PREPARE, key := key,
        value := [], promised_nodes := ∅, accepted_nodes := ∅, start_time := 0 } }

/-- Response skeleton shared by the quorum read and write paths; the wall
clock read that fills `timestamp` is not modelled (the field is left 0). -/
def responseBase (ty : MessageType) (nid : Nat) (request : Message) : Message :=
  { Message.mkDefault with
    type := ty, sender_id := nid, key := request.key,
    sequence_number := request.sequence_number }

/-- Consensus-based part of `QuorumReplication::process_read`: create the
proposal, wait, then on success read the store value into the response and
count a successful consensus, and on timeout (or local miss) count a failed
one. -/
def QuorumReplication.consensusRead (qr : QuorumReplication) (store : Store)
    (request : Message) (resp : Message) (bs : List (List QEvent)) :
    Bool × Message × QuorumReplication :=
  match readWait store request.key qr.next_proposal_number
      (qr.readConsensusStart request.key) bs with
  | (some v, qr2) => (true, { resp with value := v, success := true },
      { qr2 with successful_consensus := qr2.successful_consensus + 1 })
  | (none, qr2) => (false, { resp with success := false },
      { qr2 with failed_consensus := qr2.failed_consensus + 1 })

/-- `QuorumReplication::process_read`: the single-node fast path, then the
read-optimisation fast path, then consensus. -/
def QuorumReplication.process_read (qr : QuorumReplication) (store : Store)
    (request : Message) (bs : List (List QEvent)) : Bool × Message × QuorumReplication :=
  let resp := responseBase .READ_RESPONSE qr.node_id request
  if qr.quorum_nodes.length = 1 then
    match storeRead store request.key with
    | some v => (true, { resp with value := v, success := true },
        { qr with successful_consensus := qr.successful_consensus + 1 })
    | none => (false, { resp with success := false },
        { qr with failed_consensus := qr.failed_consensus + 1 })
  else
    if qr.read_optimization_enabled && qr.can_use_fast_path request then
      match storeRead store request.key with
      | some v => (true, { resp with value := v, success := true }, qr)
      | none => qr.consensusRead store request resp bs
    else qr.consensusRead store request resp bs

/-- The polling loop of `QuorumReplication::initiate_consensus`: succeed
once the proposal is committed with an accept majority; an exhausted
schedule is the timeout. -/
def consensusWait (pn : Nat) :
    QuorumReplication → List (List QEvent) → Bool × QuorumReplication
  | qr, [] => (false, qr.eraseActive pn)
  | qr, b :: rest =>
    match lookupProposal qr.active_proposals pn with
    | some st =>
      if st.phase = QuorumPhase.COMMIT ∧
         st.has_accept_majority qr.quorum_nodes.length = true then
        (true, qr.eraseActive pn)
      else consensusWait pn (applyBatch pn qr b) rest
    | none => consensusWait pn (applyBatch pn qr b) rest

/-- Proposal creation for a write consensus. -/
def QuorumReplication.writeConsensusStart (qr : QuorumReplication)
    (key value : List Char) : QuorumReplication :=
  { qr with
    next_proposal_number := qr.next_proposal_number + 1,
    active_proposals := insertProposal qr.active_proposals qr.next_proposal_number
      { proposal_number := qr.next_proposal_number, phase := .PREPARE, key := key,
        value := value, promised_nodes := ∅, accepted_nodes := ∅, start_time := 0 } }

/-- `QuorumReplication::initiate_consensus`: create the proposal, send the
prepares (always reported successful), poll until commit-with-majority —
then apply the write locally and erase — or time out — then erase and
fail. -/
def QuorumReplication.initiate_consensus (qr : QuorumReplication) (store : Store)
    (key value : List Char) (bs : List (List QEvent)) : Bool × Store × QuorumReplication :=
  match consensusWait qr.next_proposal_number (qr.writeConsensusStart key value) bs with
  | (true, qr2) => (true, storeWrite store key value, qr2)
  | (false, qr2) => (false, store, qr2)

/-- `QuorumReplication::process_write`: single-node fast path (the local
write always succeeds), otherwise full consensus; counters updated by
outcome. -/
def QuorumReplication.process_write (qr : QuorumReplication) (store : Store)
    (request : Message) (bs : List (List QEvent)) :
    Bool × Message × Store × QuorumReplication :=
  let resp := responseBase .WRITE_RESPONSE qr.node_id request
  if qr.quorum_nodes.length = 1 then
    (true, { resp with success := true }, storeWrite store request.key request.value,
      { qr with successful_consensus := qr.successful_consensus + 1 })
  else
    match qr.initiate_consensus store request.key request.value bs with
    | (true, store', qr') => (true, { resp with success := true }, store',
        { qr' with successful_consensus := qr'.successful_consensus + 1 })
    | (false, store', qr') => (false, { resp with success := false }, store',
        { qr' with failed_consensus := qr'.failed_consensus + 1 })

/-! ### C4: reads answered only via fast path or prepare majority -/

theorem handle_promise_quorum_nodes (qr : QuorumReplication) (m : Message) :
    (qr.handle_promise m).quorum_nodes = qr.quorum_nodes := by
  unfold QuorumReplication.handle_promise
  cases lookupProposal qr.active_proposals m.sequence_number <;> simp

theorem handle_accepted_quorum_nodes (qr : QuorumReplication) (m : Message) :
    (qr.handle_accepted m).quorum_nodes = qr.quorum_nodes := by
  unfold QuorumReplication.handle_accepted
  cases lookupProposal qr.active_proposals m.sequence_number <;> simp

theorem applyBatch_quorum_nodes (pn : Nat) (b : List QEvent) :
    ∀ qr : QuorumReplication, (applyBatch pn qr b).quorum_nodes = qr.quorum_nodes := by
  induction b with
  | nil => intro qr; rfl
  | cons e rest ih =>
    intro qr
    have : applyBatch pn qr (e :: rest) = applyBatch pn (applyQEvent pn qr e) rest := rfl
    rw [this, ih]
    cases e with
    | promise s => exact handle_promise_quorum_nodes qr _
    | accepted s => exact handle_accepted_quorum_nodes qr _

/-- The proposal has a promise majority (measured, as the handlers measure
it, against the member count) after the first `k` batches of the schedule
have been handled. -/
def majorityAt (qr : QuorumReplication) (pn : Nat) (bs : List (List QEvent)) (k : Nat) : Prop :=
  ∃ st, lookupProposal (applyBatches pn qr (bs.take k)).active_proposals pn = some st ∧
    st.has_majority qr.quorum_nodes.length = true

theorem readWait_some_majority (store : Store) (key : List Char) (pn : Nat)
    (bs : List (List QEvent)) :
    ∀ (qr : QuorumReplication) (v : List Char) (qr' : QuorumReplication),
      readWait store key pn qr bs = (some v, qr') → ∃ k ≤ bs.length, majorityAt qr pn bs k := by
  induction bs with
  | nil =>
    intro qr v qr' h
    simp [readWait] at h
  | cons b rest ih =>
    intro qr v qr' h
    cases hl : lookupProposal qr.active_proposals pn with
    | some st =>
      by_cases hm : st.has_majority qr.quorum_nodes.length = true
      · refine ⟨0, by omega, st, ?_, hm⟩
        simpa [applyBatches] using hl
      · have h' : readWait store key pn (applyBatch pn qr b) rest = (some v, qr') := by
          simpa [readWait, hl, hm] using h
        obtain ⟨k, hk, st', hst', hmaj⟩ := ih (applyBatch pn qr b) v qr' h'
        refine ⟨k + 1, by simpa using Nat.succ_le_succ hk, st', ?_, ?_⟩
        · simpa [applyBatches] using hst'
        · rwa [applyBatch_quorum_nodes] at hmaj
    | none =>
      have h' : readWait store key pn (applyBatch pn qr b) rest = (some v, qr') := by
        simpa [readWait, hl] using h
      obtain ⟨k, hk, st', hst', hmaj⟩ := ih (applyBatch pn qr b) v qr' h'
      refine ⟨k + 1, by simpa using Nat.succ_le_succ hk, st', ?_, ?_⟩
      · simpa [applyBatches] using hst'
      · rwa [applyBatch_quorum_nodes] at hmaj

theorem consensusRead_success_majority (qr : QuorumReplication) (store : Store)
    (request : Message) (resp : Message) (bs : List (List QEvent))
    (hs : (qr.consensusRead store request resp bs).1 = true) :
    ∃ k ≤ bs.length,
      majorityAt (qr.readConsensusStart request.key) qr.next_proposal_number bs k := by
  unfold QuorumReplication.consensusRead at hs
  cases hw : readWait store request.key qr.next_proposal_number
      (qr.readConsensusStart request.key) bs with
  | mk ov qr2 =>
    cases ov with
    | some v => exact readWait_some_majority _ _ _ _ _ v qr2 hw
    | none => rw [hw] at hs; simp at hs

/-- C4 (amended): on a quorum of at least two members, `process_read`
returns success only if either the read-optimisation fast path served it —
read optimisation and fast quorum enabled, a read request with a non-empty
key, and a local store hit, with no prepare phase at all — or the read
proposal's prepare phase collected promises from a floor majority of the
quorum members at some poll before the timeout.  The claim's stated rule
(success only after a prepare majority) holds only when the fast path does
not apply. -/
theorem process_read_success_requires_majority (qr : QuorumReplication) (store : Store)
    (request : Message) (bs : List (List QEvent))
    (h2 : 2 ≤ qr.quorum_nodes.length)
    (hs : (qr.process_read store request bs).1 = true) :
    (qr.read_optimization_enabled = true ∧ qr.can_use_fast_path request = true ∧
      (storeRead store request.key).isSome = true) ∨
    ∃ k ≤ bs.length,
      majorityAt (qr.readConsensusStart request.key) qr.next_proposal_number bs k := by
  unfold QuorumReplication.process_read at hs
  rw [if_neg (by omega)] at hs
  by_cases hf : qr.read_optimization_enabled && qr.can_use_fast_path request
  · rw [if_pos hf] at hs
    cases hr : storeRead store request.key with
    | some v =>
      left
      simp only [Bool.and_eq_true] at hf
      exact ⟨hf.1, hf.2, by simp [hr]⟩
    | none =>
      right
      rw [hr] at hs
      exact consensusRead_success_majority _ _ _ _ _ hs
  · rw [if_neg hf] at hs
    right
    exact consensusRead_success_majority _ _ _ _ _ hs

/-- Three-member quorum coordinator fresh from the constructor (read
optimisation and fast quorum enabled by default). -/
def qrC4 : QuorumReplication := QuorumReplication.mk0 1 [1, 2, 3]

/-- Local store already holding the requested key. -/
def storeC4 : Store := [(['k'], ['v'])]

/-- The read request for that key. -/
def readReqC4 : Message := { Message.mkDefault with type := .READ_REQUEST, key := ['k'] }

/-- C4 counterexample: on a three-member quorum the read-optimisation fast
path lets `process_read` succeed straight from the local store under an
empty delivery schedule — no promise ever arrives and no proposal is even
created (the coordinator state is returned unchanged) — so a successful
read does not require a prepare-phase majority. -/
theorem process_read_fast_path_counterexample :
    2 ≤ qrC4.quorum_nodes.length ∧
    (qrC4.process_read storeC4 readReqC4 []).1 = true ∧
    (qrC4.process_read storeC4 readReqC4 []).2.2 = qrC4 := by
  refine ⟨by decide, by decide, by decide⟩

/-- C4 witness: the amended theorem applied at the concrete fast-path
input. -/
theorem process_read_success_requires_majority_witness :
    (qrC4.read_optimization_enabled = true ∧ qrC4.can_use_fast_path readReqC4 = true ∧
      (storeRead storeC4 readReqC4.key).isSome = true) ∨
    ∃ k ≤ ([] : List (List QEvent)).length,
      majorityAt (qrC4.readConsensusStart readReqC4.key) qrC4.next_proposal_number [] k :=
  process_read_success_requires_majority qrC4 storeC4 readReqC4 [] (by decide) (by decide)

/-! ### C5: write consensus with no acceptor responses -/

theorem eraseProposal_insertProposal_fresh (tbl : List (Nat × QuorumState)) (pn : Nat)
    (st : QuorumState) (h : lookupProposal tbl pn = none) :
    eraseProposal (insertProposal tbl pn st) pn = tbl := by
  induction tbl with
  | nil => simp [insertProposal, eraseProposal]
  | cons p rest ih =>
    obtain ⟨k, st'⟩ := p
    by_cases hk : k = pn
    · simp [lookupProposal, hk] at h
    · simp only [lookupProposal, hk, if_false] at h
      simp [insertProposal, eraseProposal, hk, ih h]

theorem consensusWait_stuck (pn : Nat) (bs : List (List QEvent)) :
    ∀ qr : QuorumReplication, (∀ b ∈ bs, b = ([] : List QEvent)) →
      (∀ st, lookupProposal qr.active_proposals pn = some st → st.phase ≠ .COMMIT) →
      consensusWait pn qr bs = (false, qr.eraseActive pn) := by
  induction bs with
  | nil => intro qr _ _; rfl
  | cons b rest ih =>
    intro qr hempty hnc
    have hb : b = [] := hempty b (by simp)
    subst hb
    have hrest : ∀ b ∈ rest, b = ([] : List QEvent) := fun b hb => hempty b (by simp [hb])
    cases hl : lookupProposal qr.active_proposals pn with
    | some st =>
      have hphase := hnc st hl
      have hcond : ¬(st.phase = QuorumPhase.COMMIT ∧
          st.has_accept_majority qr.quorum_nodes.length = true) := fun hco => hphase hco.1
      have happ : applyBatch pn qr [] = qr := rfl
      rw [show consensusWait pn qr ([] :: rest) =
          (match lookupProposal qr.active_proposals pn with
           | some st =>
             if st.phase = QuorumPhase.COMMIT ∧
                st.has_accept_majority qr.quorum_nodes.length = true then
               (true, qr.eraseActive pn)
             else consensusWait pn (applyBatch pn qr []) rest
           | none => consensusWait pn (applyBatch pn qr []) rest) from rfl, hl]
      simp only [hcond, if_false, happ]
      exact ih qr hrest hnc
    | none =>
      rw [show consensusWait pn qr ([] :: rest) =
          (match lookupProposal qr.active_proposals pn with
           | some st =>
             if st.phase = QuorumPhase.COMMIT ∧
                st.has_accept_majority qr.quorum_nodes.length = true then
               (true, qr.eraseActive pn)
             else consensusWait pn (applyBatch pn qr []) rest
           | none => consensusWait pn (applyBatch pn qr []) rest) from rfl, hl]
      exact ih qr hrest hnc

/-- On a schedule with no acceptor responses the whole consensus attempt
fails and the coordinator is left with the freshly inserted proposal
erased. -/
theorem initiate_consensus_no_responses (qr : QuorumReplication) (store : Store)
    (key value : List Char) (bs : List (List QEvent))
    (hempty : ∀ b ∈ bs, b = ([] : List QEvent)) :
    qr.initiate_consensus store key value bs =
      (false, store,
        (qr.writeConsensusStart key value).eraseActive qr.next_proposal_number) := by
  have hwait : consensusWait qr.next_proposal_number
      (qr.writeConsensusStart key value) bs =
      (false, (qr.writeConsensusStart key value).eraseActive qr.next_proposal_number) := by
    apply consensusWait_stuck _ _ _ hempty
    intro st hst
    simp only [QuorumReplication.writeConsensusStart,
      lookupProposal_insertProposal] at hst
    cases hst
    simp
  unfold QuorumReplication.initiate_consensus
  rw [hwait]

/-- C5: on a quorum with at least two members, a write consensus attempt
whose delivery schedule carries no acceptor responses returns false, leaves
the local store untouched, restores the active-proposals table (so the
proposal has no entry at return), and increments failed_consensus by exactly
one.  The freshness hypothesis — the drawn proposal number is not already in
the table — is what the monotone proposal counter guarantees in the
implementation. -/
theorem process_write_no_responses (qr : QuorumReplication) (store : Store)
    (request : Message) (bs : List (List QEvent))
    (h2 : 2 ≤ qr.quorum_nodes.length)
    (hempty : ∀ b ∈ bs, b = ([] : List QEvent))
    (hfresh : lookupProposal qr.active_proposals qr.next_proposal_number = none) :
    (qr.process_write store request bs).1 = false ∧
    ((qr.process_write store request bs).2.1).success = false ∧
    (qr.process_write store request bs).2.2.1 = store ∧
    ((qr.process_write store request bs).2.2.2).active_proposals = qr.active_proposals ∧
    lookupProposal ((qr.process_write store request bs).2.2.2).active_proposals
      qr.next_proposal_number = none ∧
    ((qr.process_write store request bs).2.2.2).failed_consensus = qr.failed_consensus + 1 := by
  have hinit := initiate_consensus_no_responses qr store request.key request.value bs hempty
  have htbl : ((qr.writeConsensusStart request.key request.value).eraseActive
      qr.next_proposal_number).active_proposals = qr.active_proposals := by
    simp only [QuorumReplication.writeConsensusStart, QuorumReplication.eraseActive]
    exact eraseProposal_insertProposal_fresh _ _ _ hfresh
  unfold QuorumReplication.process_write
  rw [if_neg (by omega), hinit]
  refine ⟨rfl, rfl, rfl, htbl, ?_, rfl⟩
  show lookupProposal ((qr.writeConsensusStart request.key request.value).eraseActive
      qr.next_proposal_number).active_proposals qr.next_proposal_number = none
  rw [htbl, hfresh]

/-- Three-member coordinator used to exercise the no-responses write. -/
def qrC5 : QuorumReplication := QuorumReplication.mk0 1 [1, 2, 3]

/-- The write request for key t, value x. -/
def writeReqC5 : Message :=
  { Message.mkDefault with type := .WRITE_REQUEST, key := ['t'], value := ['x'] }

/-- C5 witness: the theorem applied at a concrete coordinator, request and
an empty (two-poll) delivery schedule. -/
theorem process_write_no_responses_witness :
    (qrC5.process_write [] writeReqC5 [[], []]).1 = false ∧
    ((qrC5.process_write [] writeReqC5 [[], []]).2.1).success = false ∧
    (qrC5.process_write [] writeReqC5 [[], []]).2.2.1 = [] ∧
    ((qrC5.process_write [] writeReqC5 [[], []]).2.2.2).active_proposals =
      qrC5.active_proposals ∧
    lookupProposal ((qrC5.process_write [] writeReqC5 [[], []]).2.2.2).active_proposals
      qrC5.next_proposal_number = none ∧
    ((qrC5.process_write [] writeReqC5 [[], []]).2.2.2).failed_consensus =
      qrC5.failed_consensus + 1 :=
  process_write_no_responses qrC5 [] writeReqC5 [[], []] (by decide) (by decide) rfl

/-! ## The chain coordinator (`chain_replication.{h,cpp}`) -/

/-- The chain coordinator state (`class ChainReplication`); `node_id` stands
for `node_->get_node_id()`. -/
structure ChainReplication where
  node_id : Nat
  chain_order : List Nat
  my_position : Nat
  batching_enabled : Bool
  batch_size : Nat
  pipelining_enabled : Bool
  write_batch : List Message
  pending_writes : List (Nat × Message)
  deriving DecidableEq

/-- `ChainReplication::find_my_position`: index of the first occurrence of
the own id in the chain, or the chain length when absent
(`List.indexOf` has exactly these semantics). -/
def ChainReplication.find_my_position (cr : ChainReplication) : ChainReplication :=
  { cr with my_position := cr.chain_order.indexOf cr.node_id }

/-- The `ChainReplication` constructor: batching on with batch size 10,
pipelining on, then `find_my_position`. -/
def ChainReplication.mk0 (nid : Nat) (chain_order : List Nat) : ChainReplication :=
  ChainReplication.find_my_position
    { node_id := nid, chain_order := chain_order, my_position := 0,
      batching_enabled := true, batch_size := 10, pipelining_enabled := true,
      write_batch := [], pending_writes := [] }

/-- `ChainReplication::is_head`. -/
def ChainReplication.is_head (cr : ChainReplication) : Bool :=
  decide (cr.my_position = 0) && !cr.chain_order.isEmpty

/-- `ChainReplication::is_tail` (the `size() - 1` is only reached together
with non-emptiness, so natural subtraction is faithful). -/
def ChainReplication.is_tail (cr : ChainReplication) : Bool :=
  decide (cr.my_position = cr.chain_order.length - 1) && !cr.chain_order.isEmpty

/-- `ChainReplication::get_successor`: id after the own position, 0 when
none. -/
def ChainReplication.get_successor (cr : ChainReplication) : Nat :=
  if cr.my_position + 1 < cr.chain_order.length then
    cr.chain_order.getD (cr.my_position + 1) 0
  else 0

/-- `ChainReplication::get_predecessor`: id before the own position, 0 when
none. -/
def ChainReplication.get_predecessor (cr : ChainReplication) : Nat :=
  if 0 < cr.my_position then cr.chain_order.getD (cr.my_position - 1) 0 else 0

/-- Map update `pending_writes_[seq] = msg`. -/
def insertPending : List (Nat × Message) → Nat → Message → List (Nat × Message)
  | [], seq, msg => [(seq, msg)]
  | (k, m) :: rest, seq, msg =>
    if k = seq then (seq, msg) :: rest else (k, m) :: insertPending rest seq msg

/-- `ChainReplication::send_ack`: a CHAIN_ACK carrying the original sequence
number, sent to the predecessor, or to the original sender when the node has
none.  Always reports success.  (The wall-clock timestamp is left 0.) -/
def ChainReplication.send_ack (cr : ChainReplication) (original : Message) :
    Bool × List (Nat × Message) :=
  let ack : Message :=
    { Message.mkDefault with
      type := .CHAIN_ACK, sender_id := cr.node_id,
      sequence_number := original.sequence_number, success := true }
  if cr.get_predecessor ≠ 0 then (true, [(cr.get_predecessor, ack)])
  else (true, [(original.sender_id, ack)])

/-- `ChainReplication::forward_write`: with no successor, emit the ACK;
otherwise clone the message as a CHAIN_FORWARD to the successor and record
the pending write under its sequence number. -/
def ChainReplication.forward_write (cr : ChainReplication) (message : Message) :
    Bool × ChainReplication × List (Nat × Message) :=
  if cr.get_successor = 0 then
    let (ok, sends) := cr.send_ack message
    (ok, cr, sends)
  else
    (true,
      { cr with pending_writes := insertPending cr.pending_writes message.sequence_number message },
      [(cr.get_successor, { message with type := .CHAIN_FORWARD, sender_id := cr.node_id })])

/-- `ChainReplication::process_write_batch`: apply every batched write to
the local store in order, forward each as a CHAIN_FORWARD to the successor
when one exists, clear the batch. -/
def ChainReplication.process_write_batch (cr : ChainReplication) (store : Store) :
    ChainReplication × Store × List (Nat × Message) :=
  if cr.write_batch.isEmpty then (cr, store, [])
  else
    let store1 := cr.write_batch.foldl (fun s m => storeWrite s m.key m.value) store
    let sends :=
      if cr.get_successor ≠ 0 then
        cr.write_batch.map (fun m =>
          (cr.get_successor, { m with type := .CHAIN_FORWARD, sender_id := cr.node_id }))
      else []
    ({ cr with write_batch := [] }, store1, sends)

/-- `ChainReplication::process_read`: a non-tail node forwards the request
to the tail (when the chain is non-empty) and signals failure locally; the
tail serves the read from the local store.  The caller's response message is
only written on the tail path, mirroring the C++ out-parameter. -/
def ChainReplication.process_read (cr : ChainReplication) (store : Store)
    (request response : Message) : Bool × Message × List (Nat × Message) :=
  if cr.is_tail = false then
    (false, response,
      if 0 < cr.chain_order.length then [(cr.chain_order.getLast?.getD 0, request)] else [])
  else
    let resp := { response with
      type := MessageType.READ_RESPONSE, sender_id := cr.node_id,
      key := request.key, sequence_number := request.sequence_number }
    match storeRead store request.key with
    | some v => (true, { resp with value := v, success := true }, [])
    | none => (false, { resp with success := false }, [])

/-- `ChainReplication::process_write`: a non-head node reports "forwarded"
success and sends the request to the head when the chain is non-empty; the
head either batches the write (flushing a full batch) or applies it locally
and forwards it down the chain. -/
def ChainReplication.process_write (cr : ChainReplication) (store : Store)
    (request response : Message) :
    Bool × Message × ChainReplication × Store × List (Nat × Message) :=
  if cr.is_head = false then
    let resp := { response with
      type := MessageType.WRITE_RESPONSE, sender_id := cr.node_id,
      key := request.key, sequence_number := request.sequence_number, success := true }
    (true, resp, cr, store,
      if 0 < cr.chain_order.length then [(cr.chain_order.headD 0, request)] else [])
  else
    let resp0 := { response with
      type := MessageType.WRITE_RESPONSE, sender_id := cr.node_id,
      key := request.key, sequence_number := request.sequence_number }
    if cr.batching_enabled && decide (cr.write_batch.length < cr.batch_size) then
      let cr1 := { cr with write_batch := cr.write_batch ++ [request] }
      if cr.batch_size ≤ cr1.write_batch.length then
        let flushed := cr1.process_write_batch store
        (true, { resp0 with success := true }, flushed.1, flushed.2.1, flushed.2.2)
      else (true, { resp0 with success := true }, cr1, store, [])
    else
      let store1 := storeWrite store request.key request.value
      if 1 < cr.chain_order.length then
        let fwd := cr.forward_write request
        (fwd.1, { resp0 with success := fwd.1 }, fwd.2.1, store1, fwd.2.2)
      else (true, { resp0 with success := true }, cr, store1, [])

/-- `ChainReplication::update_chain_order` (`optimize_chain_ordering` is a
logging-only placeholder). -/
def ChainReplication.update_chain_order (cr : ChainReplication)
    (new_chain : List Nat) : ChainReplication :=
  ChainReplication.find_my_position { cr with chain_order := new_chain }

/-- `ChainReplication::handle_node_failure` (`validate_chain_integrity`
only logs). -/
def ChainReplication.handle_node_failure (cr : ChainReplication)
    (failed_node : Nat) : ChainReplication :=
  if failed_node ∈ cr.chain_order then
    ChainReplication.find_my_position
      { cr with chain_order := cr.chain_order.erase failed_node }
  else cr

/-- `ChainReplication::handle_node_recovery`: append unconditionally and
recompute the position. -/
def ChainReplication.handle_node_recovery (cr : ChainReplication)
    (recovered_node : Nat) : ChainReplication :=
  ChainReplication.find_my_position
    { cr with chain_order := cr.chain_order ++ [recovered_node] }

/-! ### C6: behaviour on an empty chain -/

/-- C6 (amended): when the chain sequence is empty, `process_read` returns
success=false and sends nothing, and `process_write` takes the not-head
branch, sends no forward message and leaves the store untouched — but
returns success=true (the unconditional "forwarded" response), not
success=false as claimed. -/
theorem empty_chain_behaviour (cr : ChainReplication) (store : Store)
    (request response : Message) (hempty : cr.chain_order = []) :
    (cr.process_write store request response).1 = true ∧
    ((cr.process_write store request response).2.1).success = true ∧
    (cr.process_write store request response).2.2.2.2 = [] ∧
    (cr.process_write store request response).2.2.2.1 = store ∧
    (cr.process_read store request response).1 = false ∧
    (cr.process_read store request response).2.2 = [] := by
  have hhead : cr.is_head = false := by
    simp [ChainReplication.is_head, hempty]
  have htail : cr.is_tail = false := by
    simp [ChainReplication.is_tail, hempty]
  refine ⟨?_, ?_, ?_, ?_, ?_, ?_⟩ <;>
    simp [ChainReplication.process_write, ChainReplication.process_read,
      hhead, htail, hempty]

/-- Chain coordinator whose chain has become empty. -/
def crEmpty : ChainReplication := ChainReplication.mk0 1 []

/-- A write request used against the empty chain. -/
def writeReqC6 : Message :=
  { Message.mkDefault with type := .WRITE_REQUEST, key := ['k'], value := ['v'] }

/-- C6 counterexample: on the empty chain the claim says `process_write`
returns success=false; the code takes the not-head branch and returns
success=true (both as return value and in the response) while sending
nothing. -/
theorem empty_chain_write_counterexample :
    crEmpty.chain_order = [] ∧
    (crEmpty.process_write [] writeReqC6 Message.mkDefault).1 = true ∧
    ((crEmpty.process_write [] writeReqC6 Message.mkDefault).2.1).success = true ∧
    (crEmpty.process_write [] writeReqC6 Message.mkDefault).2.2.2.2 = [] := by
  refine ⟨rfl, by decide, by decide, by decide⟩

/-- C6 witness: the amended theorem applied to the concrete empty-chain
coordinator. -/
theorem empty_chain_behaviour_witness :
    (crEmpty.process_write [] writeReqC6 Message.mkDefault).1 = true ∧
    ((crEmpty.process_write [] writeReqC6 Message.mkDefault).2.1).success = true ∧
    (crEmpty.process_write [] writeReqC6 Message.mkDefault).2.2.2.2 = [] ∧
    (crEmpty.process_write [] writeReqC6 Message.mkDefault).2.2.2.1 = [] ∧
    (crEmpty.process_read [] writeReqC6 Message.mkDefault).1 = false ∧
    (crEmpty.process_read [] writeReqC6 Message.mkDefault).2.2 = [] :=
  empty_chain_behaviour crEmpty [] writeReqC6 Message.mkDefault rfl

/-! ### C10: recovery idempotence and duplicate-freedom of the quorum set -/

/-- Restriction of `QuorumOp` to the failure / recovery calls the claim
quantifies over. -/
def FailRecOnly : QuorumOp → Prop
  | .update _ => False
  | _ => True

theorem adjust_quorum_nodes_unchanged (qr : QuorumReplication) :
    (qr.adjust_quorum_size_based_on_load).quorum_nodes = qr.quorum_nodes := by
  simp only [QuorumReplication.adjust_quorum_size_based_on_load]
  split_ifs <;> rfl

theorem applyQuorumOp_nodup (qr : QuorumReplication) (op : QuorumOp)
    (hop : FailRecOnly op) (h : qr.quorum_nodes.Nodup) :
    (applyQuorumOp qr op).quorum_nodes.Nodup := by
  cases op with
  | fail id =>
    simp only [applyQuorumOp, QuorumReplication.handle_node_failure]
    split_ifs with h1 h2
    · rw [adjust_quorum_nodes_unchanged]
      exact h.erase id
    · exact h.erase id
    · exact h
  | recover id =>
    simp only [applyQuorumOp, QuorumReplication.handle_node_recovery]
    split_ifs with h1
    · exact h
    · have hmem : id ∉ qr.quorum_nodes := by
        simpa [QuorumReplication.is_in_quorum] using h1
      simp [List.nodup_append, h, hmem]
  | update nodes => exact hop.elim

/-- C10: `QuorumReplication::handle_node_recovery` is idempotent on
membership — recovering an id already in the quorum returns the coordinator
completely unchanged — so from a duplicate-free member list no sequence of
failure and recovery calls ever introduces a duplicate id; the chain
coordinator, by contrast, appends on recovery unconditionally and duplicates
an id that is already in the chain. -/
theorem recovery_idempotent_no_duplicates :
    (∀ (qr : QuorumReplication) (id : Nat), qr.is_in_quorum id = true →
        qr.handle_node_recovery id = qr) ∧
    (∀ (qr : QuorumReplication) (ops : List QuorumOp), (∀ op ∈ ops, FailRecOnly op) →
        qr.quorum_nodes.Nodup → (applyQuorumOps qr ops).quorum_nodes.Nodup) ∧
    ¬ ((ChainReplication.mk0 1 [1]).handle_node_recovery 1).chain_order.Nodup := by
  refine ⟨?_, ?_, by decide⟩
  · intro qr id h
    unfold QuorumReplication.handle_node_recovery
    rw [if_pos h]
  · intro qr ops
    induction ops generalizing qr with
    | nil => intro _ h; simpa [applyQuorumOps]
    | cons op rest ih =>
      intro hops h
      have : applyQuorumOps qr (op :: rest) = applyQuorumOps (applyQuorumOp qr op) rest := rfl
      rw [this]
      exact ih _ (fun o ho => hops o (by simp [ho]))
        (applyQuorumOp_nodup qr op (hops op (by simp)) h)

/-- C10 witness: idempotent recovery and duplicate-freedom at a concrete
coordinator and call sequence. -/
theorem recovery_idempotent_no_duplicates_witness :
    (QuorumReplication.mk0 1 [1, 2]).handle_node_recovery 2 =
      QuorumReplication.mk0 1 [1, 2] ∧
    (applyQuorumOps (QuorumReplication.mk0 1 [1, 2])
        [QuorumOp.fail 1, QuorumOp.recover 1]).quorum_nodes.Nodup := by
  constructor
  · exact recovery_idempotent_no_duplicates.1 _ 2 (by decide)
  · exact recovery_idempotent_no_duplicates.2.1 _ _
      (by intro op hop; fin_cases hop <;> trivial) (by decide)

/-! ## The hybrid dispatcher (`hybrid_protocol.{h,cpp}`) -/

/-- Workload classification (`enum class WorkloadPattern`). -/
inductive WorkloadPattern
  | READ_HEAVY | WRITE_HEAVY | BALANCED | BURSTY | UNKNOWN
  deriving DecidableEq

/-- `struct AdaptiveMetrics` with its default constructor values. -/
structure AdaptiveMetrics where
  read_write_ratio : ℚ
  average_latency : ℚ
  throughput : ℚ
  network_partition_probability : ℚ
  active_nodes : Nat
  pattern : WorkloadPattern
  deriving DecidableEq

/-- The `AdaptiveMetrics` default constructor. -/
def AdaptiveMetrics.mk0 : AdaptiveMetrics :=
  { read_write_ratio := 1, average_latency := 0, throughput := 0,
    network_partition_probability := 0, active_nodes := 0, pattern := .UNKNOWN }

/-- The dispatcher's read cache `cache_`: key to (value, stored-at). -/
abbrev Cache := List (List Char × (List Char × Nat))

/-- Cache map lookup. -/
def cacheLookup : Cache → List Char → Option (List Char × Nat)
  | [], _ => none
  | (k, e) :: rest, key => if k = key then some e else cacheLookup rest key

/-- Cache map erase. -/
def cacheErase : Cache → List Char → Cache
  | [], _ => []
  | (k, e) :: rest, key => if k = key then rest else (k, e) :: cacheErase rest key

/-- Cache map update-or-append (`cache_[key] = ...`). -/
def cacheInsert : Cache → List Char → (List Char × Nat) → Cache
  | [], key, e => [(key, e)]
  | (k, e') :: rest, key, e =>
    if k = key then (key, e) :: rest else (k, e') :: cacheInsert rest key e

/-- The eviction scan of `update_cache`: the key of the first entry carrying
the minimal stored-at timestamp, in map order. -/
def oldestEntry : Cache → Option (List Char × Nat)
  | [] => none
  | (k, (_, ts)) :: rest =>
    match oldestEntry rest with
    | none => some (k, ts)
    | some (k', ts') => if ts' < ts then some (k', ts') else some (k, ts)

/-- The dispatcher state (`class HybridProtocol`).  `node_id` stands for
`node_->get_node_id()`; `read_count` / `write_count` are the function-static
counters of `update_performance_metrics`; `mode_switching_times_` and the
request batching queues only feed logging/averages and are not modelled. -/
structure HybridProtocol where
  node_id : Nat
  adaptive_switching_enabled : Bool
  current_metrics : AdaptiveMetrics
  current_mode : ReplicationMode
  read_preference : ReplicationMode
  write_preference : ReplicationMode
  switching_threshold : ℚ
  intelligent_routing_enabled : Bool
  load_balancing_enabled : Bool
  caching_enabled : Bool
  speculative_execution_enabled : Bool
  request_batching_enabled : Bool
  cache : Cache
  cache_ttl : Nat
  chain_operations : Nat
  quorum_operations : Nat
  cache_hits : Nat
  cache_misses : Nat
  read_count : Nat
  write_count : Nat
  chain : ChainReplication
  quorum : QuorumReplication
  deriving DecidableEq

/-- The `HybridProtocol` constructor: adaptive switching on, chain-read and
quorum-write preferences, threshold 0.15, intelligent routing, load
balancing, caching and request batching on, speculative execution off,
cache TTL 30 s (microseconds), zero counters; the sub-protocol
optimisations it enables are already those sub-constructors' defaults. -/
def HybridProtocol.mk0 (nid : Nat) (chain_order quorum_nodes : List Nat) : HybridProtocol :=
  { node_id := nid, adaptive_switching_enabled := true,
    current_metrics := AdaptiveMetrics.mk0, current_mode := .HYBRID_AUTO,
    read_preference := .CHAIN_ONLY, write_preference := .QUORUM_ONLY,
    switching_threshold := mkRat 3 20, intelligent_routing_enabled := true,
    load_balancing_enabled := true, caching_enabled := true,
    speculative_execution_enabled := false, request_batching_enabled := true,
    cache := [], cache_ttl := 30000000, chain_operations := 0,
    quorum_operations := 0, cache_hits := 0, cache_misses := 0,
    read_count := 0, write_count := 0,
    chain := ChainReplication.mk0 nid chain_order,
    quorum := QuorumReplication.mk0 nid quorum_nodes }

/-- `HybridProtocol::try_cache_read` at clock value `now`: a fresh entry is
a hit; a stale entry is erased and misses; absence misses. -/
def HybridProtocol.try_cache_read (hp : HybridProtocol) (key : List Char)
    (now : Nat) : Option (List Char) × HybridProtocol :=
  match cacheLookup hp.cache key with
  | none => (none, hp)
  | some (v, ts) =>
    if now - ts < hp.cache_ttl then (some v, hp)
    else (none, { hp with cache := cacheErase hp.cache key })

/-- `HybridProtocol::update_cache` at clock value `now`: insert/replace and,
above 1000 entries, evict the entry with the smallest stored-at. -/
def HybridProtocol.update_cache (hp : HybridProtocol) (key value : List Char)
    (now : Nat) : HybridProtocol :=
  let c := cacheInsert hp.cache key (value, now)
  if 1000 < c.length then
    match oldestEntry c with
    | some ke => { hp with cache := cacheErase c ke.1 }
    | none => { hp with cache := c }
  else { hp with cache := c }

/-- `HybridProtocol::decide_protocol_for_read`. -/
def HybridProtocol.decide_protocol_for_read (hp : HybridProtocol) : ReplicationMode :=
  if hp.intelligent_routing_enabled then
    if mkRat 1 5 < hp.current_metrics.network_partition_probability then .CHAIN_ONLY
    else if hp.current_metrics.pattern = .READ_HEAVY then .CHAIN_ONLY
    else hp.read_preference
  else hp.read_preference

/-- `HybridProtocol::decide_protocol_for_write`. -/
def HybridProtocol.decide_protocol_for_write (hp : HybridProtocol) : ReplicationMode :=
  if hp.intelligent_routing_enabled then
    if hp.current_metrics.pattern = .WRITE_HEAVY then .QUORUM_ONLY
    else if hp.current_metrics.pattern = .BURSTY then .CHAIN_ONLY
    else hp.write_preference
  else hp.write_preference

/-- `HybridProtocol::update_performance_metrics`: the exponentially weighted
average latency (`avg*0.9 + observed_ms*0.1`, the observed microsecond
latency arriving as an exact rational) and the running read/write counts
feeding `read_write_ratio`. -/
def HybridProtocol.update_performance_metrics (hp : HybridProtocol)
    (request : Message) (latency : ℚ) : HybridProtocol :=
  let m := hp.current_metrics
  let m1 := { m with
    average_latency := m.average_latency * mkRat 9 10 + latency / 1000 * mkRat 1 10 }
  let rc := if request.is_read_operation then hp.read_count + 1 else hp.read_count
  let wc := if !request.is_read_operation && request.is_write_operation
            then hp.write_count + 1 else hp.write_count
  let m2 := if 0 < wc then { m1 with read_write_ratio := mkRat rc wc } else m1
  { hp with current_metrics := m2, read_count := rc, write_count := wc }

/-- `HybridProtocol::process_read`: cache consult (a hit returns immediately
and counts a hit, a miss counts a miss), mode selection, dispatch to the
chain or quorum coordinator, cache fill on success, metrics update.  `now`
is the wall clock read during the cache operations, `latency` the measured
duration fed into the metrics, and `bs` the delivery schedule should the
quorum path run a consensus read.  Speculative execution is a logging
placeholder; chain-path forwards do not feed back into the dispatcher and
are dropped here. -/
def HybridProtocol.process_read (hp : HybridProtocol) (store : Store)
    (request : Message) (now : Nat) (latency : ℚ) (bs : List (List QEvent)) :
    Bool × Message × HybridProtocol :=
  let cacheStep : Option (List Char) × HybridProtocol :=
    if hp.caching_enabled then
      match hp.try_cache_read request.key now with
      | (some v, hp1) => (some v, hp1)
      | (none, hp1) => (none, { hp1 with cache_misses := hp1.cache_misses + 1 })
    else (none, hp)
  match cacheStep with
  | (some v, hp1) =>
    (true, { Message.mkDefault with
      type := .READ_RESPONSE, sender_id := hp1.node_id, key := request.key,
      value := v, success := true },
      { hp1 with cache_hits := hp1.cache_hits + 1 })
  | (none, hp1) =>
    let mode := if hp1.adaptive_switching_enabled then hp1.decide_protocol_for_read
                else hp1.read_preference
    let step : Bool × Message × HybridProtocol :=
      if mode = ReplicationMode.CHAIN_ONLY ∨
         (mode = ReplicationMode.HYBRID_AUTO ∧
           2 < hp1.current_metrics.read_write_ratio) then
        let r := hp1.chain.process_read store request Message.mkDefault
        (r.1, r.2.1, { hp1 with chain_operations := hp1.chain_operations + 1 })
      else if mode = ReplicationMode.QUORUM_ONLY ∨ mode = ReplicationMode.HYBRID_AUTO then
        let r := hp1.quorum.process_read store request bs
        (r.1, r.2.1, { hp1 with
          quorum := r.2.2, quorum_operations := hp1.quorum_operations + 1 })
      else (false, Message.mkDefault, hp1)
    let hp2 := if step.1 && hp1.caching_enabled then
        step.2.2.update_cache request.key step.2.1.value now
      else step.2.2
    (step.1, step.2.1, hp2.update_performance_metrics request latency)

/-- `HybridProtocol::process_write`: cache invalidation for the key, mode
selection, dispatch, metrics update.  Returns the updated store as well. -/
def HybridProtocol.process_write (hp : HybridProtocol) (store : Store)
    (request : Message) (latency : ℚ) (bs : List (List QEvent)) :
    Bool × Message × HybridProtocol × Store :=
  let hp1 := if hp.caching_enabled then { hp with cache := cacheErase hp.cache request.key }
             else hp
  let mode := if hp1.adaptive_switching_enabled then hp1.decide_protocol_for_write
              else hp1.write_preference
  let step : Bool × Message × HybridProtocol × Store :=
    if mode = ReplicationMode.CHAIN_ONLY ∨
       (mode = ReplicationMode.HYBRID_AUTO ∧
         mkRat 3 10 < hp1.current_metrics.network_partition_probability) then
      let r := hp1.chain.process_write store request Message.mkDefault
      (r.1, r.2.1, { hp1 with
        chain := r.2.2.1, chain_operations := hp1.chain_operations + 1 }, r.2.2.2.1)
    else if mode = ReplicationMode.QUORUM_ONLY ∨ mode = ReplicationMode.HYBRID_AUTO then
      let r := hp1.quorum.process_write store request bs
      (r.1, r.2.1, { hp1 with
        quorum := r.2.2.2, quorum_operations := hp1.quorum_operations + 1 }, r.2.2.1)
    else (false, Message.mkDefault, hp1, store)
  (step.1, step.2.1, step.2.2.1.update_performance_metrics request latency, step.2.2.2)

/-! ### C8: the caching scenario on a single-node cluster -/

/-- A read request for a key. -/
def readReq (k : List Char) : Message :=
  { Message.mkDefault with type := .READ_REQUEST, key := k }

/-- A write request for a key/value pair. -/
def writeReq (k v : List Char) : Message :=
  { Message.mkDefault with type := .WRITE_REQUEST, key := k, value := v }

theorem storeRead_storeWrite (store : Store) (k v : List Char) :
    storeRead (storeWrite store k v) k = some v := by
  induction store with
  | nil => simp [storeWrite, storeRead]
  | cons p rest ih =>
    obtain ⟨k', v'⟩ := p
    by_cases h : k' = k <;> simp [storeWrite, storeRead, h, ih]

/-- C8: on the freshly constructed dispatcher over the single-node cluster
{1} — caching enabled, read preference CHAIN_ONLY and write preference
QUORUM_ONLY by construction — with the local store holding k ↦ v: the first
`process_read k` returns v and increments cache_misses (0 → 1); a second
`process_read k` within the cache TTL returns v and increments cache_hits
(0 → 1); `process_write k v'` removes k from the cache, the write reaching
the store through the single-node quorum fast path; and a subsequent
`process_read k` returns v' and increments cache_misses again (1 → 2). -/
theorem hybrid_cache_scenario (store : Store) (k v v' : List Char)
    (t1 t2 t4 : Nat) (lat1 lat2 lat3 lat4 : ℚ)
    (hstore : storeRead store k = some v)
    (httl : t2 - t1 < 30000000) :
    (((HybridProtocol.mk0 1 [1] [1]).process_read store (readReq k) t1 lat1 []).1 = true ∧
     ((HybridProtocol.mk0 1 [1] [1]).process_read store (readReq k) t1 lat1 []).2.1.value = v ∧
     ((HybridProtocol.mk0 1 [1] [1]).process_read store (readReq k) t1 lat1 []).2.2.cache_misses = 1 ∧
     ((HybridProtocol.mk0 1 [1] [1]).process_read store (readReq k) t1 lat1 []).2.2.cache_hits = 0) ∧
    (let hpA := ((HybridProtocol.mk0 1 [1] [1]).process_read store (readReq k) t1 lat1 []).2.2
     (hpA.process_read store (readReq k) t2 lat2 []).1 = true ∧
     (hpA.process_read store (readReq k) t2 lat2 []).2.1.value = v ∧
     (hpA.process_read store (readReq k) t2 lat2 []).2.2.cache_hits = 1 ∧
     (hpA.process_read store (readReq k) t2 lat2 []).2.2.cache_misses = 1 ∧
     (let hpB := (hpA.process_read store (readReq k) t2 lat2 []).2.2
      (hpB.process_write store (writeReq k v') lat3 []).1 = true ∧
      cacheLookup (hpB.process_write store (writeReq k v') lat3 []).2.2.1.cache k = none ∧
      storeRead (hpB.process_write store (writeReq k v') lat3 []).2.2.2 k = some v' ∧
      (let hpC := (hpB.process_write store (writeReq k v') lat3 []).2.2.1
       let storeC := (hpB.process_write store (writeReq k v') lat3 []).2.2.2
       (hpC.process_read storeC (readReq k) t4 lat4 []).1 = true ∧
       (hpC.process_read storeC (readReq k) t4 lat4 []).2.1.value = v' ∧
       (hpC.process_read storeC (readReq k) t4 lat4 []).2.2.cache_misses = 2 ∧
       (hpC.process_read storeC (readReq k) t4 lat4 []).2.2.cache_hits = 1))) := by
  have hq1 : ¬ (mkRat 1 5 < (0 : ℚ)) := by decide
  simp [HybridProtocol.process_read, HybridProtocol.process_write,
    HybridProtocol.try_cache_read, HybridProtocol.update_cache,
    HybridProtocol.update_performance_metrics,
    HybridProtocol.decide_protocol_for_read, HybridProtocol.decide_protocol_for_write,
    HybridProtocol.mk0, AdaptiveMetrics.mk0,
    cacheLookup, cacheErase, cacheInsert, oldestEntry,
    ChainReplication.process_read, ChainReplication.is_tail, ChainReplication.mk0,
    ChainReplication.find_my_position,
    QuorumReplication.process_write, QuorumReplication.mk0, responseBase,
    Message.is_read_operation, Message.is_write_operation, Message.mkDefault,
    readReq, writeReq, storeRead_storeWrite,
    hstore, httl, hq1]

/-- C8 witness: the scenario evaluated at the concrete store {"k" ↦ "v"},
value "w" for the overwrite, and clock values 0, 1, 2. -/
theorem hybrid_cache_scenario_witness :
    (((HybridProtocol.mk0 1 [1] [1]).process_read [(['k'], ['v'])]
        (readReq ['k']) 0 0 []).1 = true) ∧
    (((((HybridProtocol.mk0 1 [1] [1]).process_read [(['k'], ['v'])]
        (readReq ['k']) 0 0 []).2.2).process_read [(['k'], ['v'])]
        (readReq ['k']) 1 0 []).2.2.cache_hits = 1) := by
  have h := hybrid_cache_scenario [(['k'], ['v'])] ['k'] ['v'] ['w']
    0 1 2 0 0 0 0 (by decide) (by decide)
  exact ⟨h.1.1, h.2.2.2.2.1⟩

/-! ## The metrics pipeline (`performance/metrics.{h,cpp}`)

The claim under verification concerns the operation counters and the
success rate; the system-resource gauges, alert thresholds and percentile
calculation feed only reports and are not modelled.  `OperationMetrics`
omits `value_size`, which nothing ever writes. -/

/-- `struct OperationMetrics` as `start_operation` initialises it. -/
structure OperationMetrics where
  start_time : Nat
  end_time : Nat
  operation_type : MessageType
  success : Bool
  key : List Char
  hops : Nat
  mode_used : ReplicationMode
  deriving DecidableEq

/-- Lookup in the `active_operations_` map. -/
def lookupOp : List (Nat × OperationMetrics) → Nat → Option OperationMetrics
  | [], _ => none
  | (k, op) :: rest, oid => if k = oid then some op else lookupOp rest oid

/-- Map update `active_operations_[id] = metrics`: replace in place or
append. -/
def insertOp : List (Nat × OperationMetrics) → Nat → OperationMetrics →
    List (Nat × OperationMetrics)
  | [], oid, op => [(oid, op)]
  | (k, op') :: rest, oid, op =>
    if k = oid then (oid, op) :: rest else (k, op') :: insertOp rest oid op

/-- Map erase `active_operations_.erase(it)`. -/
def eraseOp : List (Nat × OperationMetrics) → Nat → List (Nat × OperationMetrics)
  | [], _ => []
  | (k, op) :: rest, oid => if k = oid then rest else (k, op) :: eraseOp rest oid

/-- The monitor state (`class PerformanceMonitor`); latency accumulators
are exact rationals standing for the C++ doubles. -/
structure PerformanceMonitor where
  active_operations : List (Nat × OperationMetrics)
  completed_operations : List OperationMetrics
  total_operations : Nat
  successful_operations : Nat
  failed_operations : Nat
  cumulative_latency : ℚ
  chain_operations : Nat
  quorum_operations : Nat
  hybrid_operations : Nat
  chain_latency : ℚ
  quorum_latency : ℚ
  hybrid_latency : ℚ
  deriving DecidableEq

/-- The `PerformanceMonitor` constructor: everything zero and empty. -/
def PerformanceMonitor.mk0 : PerformanceMonitor :=
  { active_operations := [], completed_operations := [], total_operations := 0,
    successful_operations := 0, failed_operations := 0, cumulative_latency := 0,
    chain_operations := 0, quorum_operations := 0, hybrid_operations := 0,
    chain_latency := 0, quorum_latency := 0, hybrid_latency := 0 }

/-- `PerformanceMonitor::start_operation` at clock value `now`: store the
start record (overwriting any active operation under the same id, as the
map assignment does) and count the operation immediately. -/
def PerformanceMonitor.start_operation (pm : PerformanceMonitor)
    (operation_id : Nat) (ty : MessageType) (key : List Char) (now : Nat) :
    PerformanceMonitor :=
  { pm with
    active_operations := insertOp pm.active_operations operation_id
      { start_time := now, end_time := 0, operation_type := ty, success := false,
        key := key, hops := 0, mode_used := .HYBRID_AUTO },
    total_operations := pm.total_operations + 1 }

/-- `OperationMetrics::get_latency_ms` (microseconds to milliseconds; the
clock is monotone, so the subtraction never underflows). -/
def OperationMetrics.get_latency_ms (op : OperationMetrics) : Nat :=
  (op.end_time - op.start_time) / 1000

/-- `PerformanceMonitor::end_operation` at clock value `now`: for a known
operation id, complete the record, bump the success or failure counter and
the per-mode aggregates, accumulate the latency, move the record into the
bounded (10 000) completed ring and drop it from the active map; unknown
ids are ignored. -/
def PerformanceMonitor.end_operation (pm : PerformanceMonitor)
    (operation_id : Nat) (success : Bool) (mode : ReplicationMode) (hops : Nat)
    (now : Nat) : PerformanceMonitor :=
  match lookupOp pm.active_operations operation_id with
  | none => pm
  | some op =>
    let op1 := { op with
      end_time := now, success := success, mode_used := mode, hops := hops }
    let latency : ℚ := (op1.get_latency_ms : ℚ)
    let pm1 :=
      if success then { pm with successful_operations := pm.successful_operations + 1 }
      else { pm with failed_operations := pm.failed_operations + 1 }
    let pm2 :=
      match mode with
      | .CHAIN_ONLY => { pm1 with
          chain_operations := pm1.chain_operations + 1,
          chain_latency := pm1.chain_latency + latency }
      | .QUORUM_ONLY => { pm1 with
          quorum_operations := pm1.quorum_operations + 1,
          quorum_latency := pm1.quorum_latency + latency }
      | .HYBRID_AUTO => { pm1 with
          hybrid_operations := pm1.hybrid_operations + 1,
          hybrid_latency := pm1.hybrid_latency + latency }
    let completed := pm2.completed_operations ++ [op1]
    { pm2 with
      cumulative_latency := pm2.cumulative_latency + latency,
      active_operations := eraseOp pm2.active_operations operation_id,
      completed_operations := if 10000 < completed.length then completed.drop 1
                              else completed }

/-- `PerformanceMonitor::get_success_rate`: successes over total when any
operation was counted, 0 otherwise. -/
def PerformanceMonitor.get_success_rate (pm : PerformanceMonitor) : ℚ :=
  if 0 < pm.total_operations then
    mkRat pm.successful_operations pm.total_operations
  else 0

/-! ### C9: accounting across start/end interleavings -/

/-- One call into the metrics pipeline. -/
inductive MonOp
  | startOp (operation_id : Nat) (ty : MessageType) (key : List Char) (t : Nat)
  | endOp (operation_id : Nat) (success : Bool) (mode : ReplicationMode)
      (hops : Nat) (t : Nat)
  deriving DecidableEq

/-- Dispatch one call. -/
def applyMonOp (pm : PerformanceMonitor) : MonOp → PerformanceMonitor
  | .startOp oid ty key t => pm.start_operation oid ty key t
  | .endOp oid success mode hops t => pm.end_operation oid success mode hops t

/-- Run an interleaving of calls against the fresh monitor. -/
def runMonOps (ops : List MonOp) : PerformanceMonitor :=
  ops.foldl applyMonOp PerformanceMonitor.mk0

/-- The interleavings in which no `start_operation` reuses an id that is
still in flight (so no active record is overwritten). -/
def FreshStarts : PerformanceMonitor → List MonOp → Prop
  | _, [] => True
  | pm, op :: rest =>
    (match op with
     | .startOp oid _ _ _ => lookupOp pm.active_operations oid = none
     | .endOp _ _ _ _ _ => True) ∧ FreshStarts (applyMonOp pm op) rest

theorem insertOp_length (l : List (Nat × OperationMetrics)) (oid : Nat)
    (op : OperationMetrics) :
    (insertOp l oid op).length =
      if lookupOp l oid = none then l.length + 1 else l.length := by
  induction l with
  | nil => simp [insertOp, lookupOp]
  | cons p rest ih =>
    obtain ⟨k, op'⟩ := p
    by_cases h : k = oid <;> simp [insertOp, lookupOp, h, ih] <;> split_ifs <;> simp

theorem eraseOp_length (l : List (Nat × OperationMetrics)) (oid : Nat)
    (op : OperationMetrics) (h : lookupOp l oid = some op) :
    (eraseOp l oid).length + 1 = l.length := by
  induction l with
  | nil => simp [lookupOp] at h
  | cons p rest ih =>
    obtain ⟨k, op'⟩ := p
    by_cases hk : k = oid
    · simp [eraseOp, hk]
    · simp only [lookupOp, hk, if_false] at h
      simp [eraseOp, hk, ih h]

/-- Counter accounting of one metrics call: the pending invariant is
preserved, exactly when starts are fresh. -/
theorem applyMonOp_invariant (pm : PerformanceMonitor) (op : MonOp) :
    (pm.successful_operations + pm.failed_operations + pm.active_operations.length ≤
        pm.total_operations →
      (applyMonOp pm op).successful_operations + (applyMonOp pm op).failed_operations +
        (applyMonOp pm op).active_operations.length ≤ (applyMonOp pm op).total_operations) ∧
    ((match op with
      | .startOp oid _ _ _ => lookupOp pm.active_operations oid = none
      | .endOp _ _ _ _ _ => True) →
      pm.successful_operations + pm.failed_operations + pm.active_operations.length =
        pm.total_operations →
      (applyMonOp pm op).successful_operations + (applyMonOp pm op).failed_operations +
        (applyMonOp pm op).active_operations.length = (applyMonOp pm op).total_operations) := by
  cases op with
  | startOp oid ty key t =>
    refine ⟨?_, ?_⟩
    · by_cases hfound : lookupOp pm.active_operations oid = none
      · simp only [applyMonOp, PerformanceMonitor.start_operation, insertOp_length, hfound,
          if_pos]
        omega
      · simp only [applyMonOp, PerformanceMonitor.start_operation, insertOp_length, hfound,
          if_false]
        omega
    · intro hfresh
      simp only [applyMonOp, PerformanceMonitor.start_operation, insertOp_length, hfresh,
        if_pos]
      omega
  | endOp oid success mode hops t =>
    cases hl : lookupOp pm.active_operations oid with
    | none => simp [applyMonOp, PerformanceMonitor.end_operation, hl]
    | some op0 =>
      have hlen := eraseOp_length pm.active_operations oid op0 hl
      refine ⟨?_, fun _ => ?_⟩ <;>
        cases success <;> cases mode <;>
          simp only [applyMonOp, PerformanceMonitor.end_operation, hl] <;>
          simp <;>
          omega

theorem runMonOps_le (ops : List MonOp) :
    ∀ pm : PerformanceMonitor,
      pm.successful_operations + pm.failed_operations + pm.active_operations.length ≤
        pm.total_operations →
      (ops.foldl applyMonOp pm).successful_operations +
          (ops.foldl applyMonOp pm).failed_operations +
          (ops.foldl applyMonOp pm).active_operations.length ≤
        (ops.foldl applyMonOp pm).total_operations := by
  induction ops with
  | nil => intro pm h; simpa using h
  | cons op rest ih =>
    intro pm h
    exact ih (applyMonOp pm op) ((applyMonOp_invariant pm op).1 h)

theorem runMonOps_eq (ops : List MonOp) :
    ∀ pm : PerformanceMonitor, FreshStarts pm ops →
      pm.successful_operations + pm.failed_operations + pm.active_operations.length =
        pm.total_operations →
      (ops.foldl applyMonOp pm).successful_operations +
          (ops.foldl applyMonOp pm).failed_operations +
          (ops.foldl applyMonOp pm).active_operations.length =
        (ops.foldl applyMonOp pm).total_operations := by
  induction ops with
  | nil => intro pm _ h; simpa using h
  | cons op rest ih =>
    intro pm hfresh h
    exact ih (applyMonOp pm op) hfresh.2
      ((applyMonOp_invariant pm op).2 hfresh.1 h)

/-- C9 (amended): after every interleaving of `start_operation` and
`end_operation` calls, successful + failed + in-flight ≤ total, with
equality whenever no start reuses an id still in flight (in particular the
claimed successful + failed = total holds only once every started operation
has been ended); and `get_success_rate` always lies in [0, 1]. -/
theorem metrics_accounting (ops : List MonOp) :
    (runMonOps ops).successful_operations + (runMonOps ops).failed_operations +
        (runMonOps ops).active_operations.length ≤ (runMonOps ops).total_operations ∧
    (FreshStarts PerformanceMonitor.mk0 ops →
      (runMonOps ops).successful_operations + (runMonOps ops).failed_operations +
          (runMonOps ops).active_operations.length = (runMonOps ops).total_operations) ∧
    0 ≤ (runMonOps ops).get_success_rate ∧ (runMonOps ops).get_success_rate ≤ 1 := by
  have hle : (runMonOps ops).successful_operations + (runMonOps ops).failed_operations +
      (runMonOps ops).active_operations.length ≤ (runMonOps ops).total_operations :=
    runMonOps_le ops PerformanceMonitor.mk0 (by simp [PerformanceMonitor.mk0])
  refine ⟨hle, fun hfresh => runMonOps_eq ops PerformanceMonitor.mk0 hfresh
    (by simp [PerformanceMonitor.mk0]), ?_, ?_⟩
  · unfold PerformanceMonitor.get_success_rate
    split_ifs with h
    · rw [Rat.mkRat_eq_div]
      positivity
    · exact le_refl 0
  · unfold PerformanceMonitor.get_success_rate
    split_ifs with h
    · rw [Rat.mkRat_eq_div]
      rw [div_le_one (by exact_mod_cast h)]
      exact_mod_cast (by omega : (runMonOps ops).successful_operations ≤
        (runMonOps ops).total_operations)
    · exact zero_le_one

/-- C9 counterexample: after a single `start_operation` with no matching
`end_operation` — a legal interleaving — total is 1 while successful +
failed is 0, so the claimed equality fails at every in-flight state. -/
theorem metrics_inflight_counterexample :
    ¬ ((runMonOps [MonOp.startOp 1 .READ_REQUEST ['k'] 0]).successful_operations +
       (runMonOps [MonOp.startOp 1 .READ_REQUEST ['k'] 0]).failed_operations =
       (runMonOps [MonOp.startOp 1 .READ_REQUEST ['k'] 0]).total_operations) := by
  decide

/-- C9 witness: the accounting theorem applied to a concrete start/end
interleaving, with the fresh-starts side condition discharged. -/
theorem metrics_accounting_witness :
    (runMonOps [MonOp.startOp 1 .READ_REQUEST ['k'] 0,
        MonOp.endOp 1 true .CHAIN_ONLY 1 5]).successful_operations +
      (runMonOps [MonOp.startOp 1 .READ_REQUEST ['k'] 0,
        MonOp.endOp 1 true .CHAIN_ONLY 1 5]).failed_operations +
      (runMonOps [MonOp.startOp 1 .READ_REQUEST ['k'] 0,
        MonOp.endOp 1 true .CHAIN_ONLY 1 5]).active_operations.length =
      (runMonOps [MonOp.startOp 1 .READ_REQUEST ['k'] 0,
        MonOp.endOp 1 true .CHAIN_ONLY 1 5]).total_operations :=
  (metrics_accounting _).2.1
    (by simp [FreshStarts, applyMonOp, PerformanceMonitor.mk0,
      PerformanceMonitor.start_operation, lookupOp, insertOp])

end Replication
